import Mathlib

/-!
Verification of the mortgage amortization engine.

This file embeds the calculation core of the repository (insurance premium
derivation, semi-annual rate conversion, payment sizing, the amortization
loop with additional payments and prepayment-limit tracking, and the shadow
no-prepayment run) as Lean definitions, and proves or refutes the frozen
claims about it.

Modelling conventions:
* JavaScript numbers are modelled as real numbers; `Math.pow` is real
  exponentiation (`Real.rpow`), `Math.floor`/`Math.round` are `Int.floor`
  based.  Consequently the development is `noncomputable`; concrete runs in
  witnesses are evaluated symbolically by `simp`/`norm_num`.
* JavaScript `Date` values are modelled as a day number (days since the civil
  epoch 1970-01-01, negative before); `getFullYear`/`getMonth` are recovered
  by the standard civil-calendar conversion.  `setDate(getDate() + n)`
  normalises to plain day addition, which the model mirrors directly.
* The string period identifiers (`"2024"`, `"anniversary-3"`, initial `''`)
  are modelled by the inductive `PeriodId`; within one run only identifiers
  of a single shape plus the initial one are ever compared, so equality of
  the strings coincides with equality in `PeriodId`.
* The `exceedsLimit` entry field is `true` or absent (`undefined`) in the
  source; it is modelled as a `Bool`, with `false` meaning absent.
* JavaScript `%` is truncated remainder, modelled by `Int.tmod`.
* Thrown exceptions are modelled by `Except String`.
-/

noncomputable section

/-- Payment cadence (source type `PaymentFrequency`). -/
inductive PaymentFrequency
  | monthly
  | biWeekly
  | weekly
  | acceleratedBiWeekly
deriving DecidableEq

/-- One rate term (source interface `RenewalPeriod`). -/
structure RenewalPeriod where
  startPayment : ℤ
  annualRate : ℝ
  termYears : ℝ

/-- Kind of an additional payment rule (source type `AdditionalPaymentType`). -/
inductive AdditionalPaymentType
  | oneTime
  | recurring
deriving DecidableEq

/-- An additional-payment rule (source interface `AdditionalPayment`).
`endPayment`, `frequency` and `enabled` are optional in the source. -/
structure AdditionalPayment where
  type : AdditionalPaymentType
  amount : ℝ
  startPayment : ℤ
  endPayment : Option ℤ
  frequency : Option ℤ
  enabled : Option Bool

/-- Reset policy for prepayment limits (source `'calendar' | 'anniversary'`). -/
inductive ResetPeriod
  | calendar
  | anniversary
deriving DecidableEq

/-- Contractual prepayment limits (source interface `PrepaymentLimits`). -/
structure PrepaymentLimits where
  lumpSumLimitPercent : ℝ
  paymentIncreaseLimitPercent : ℝ
  resetPeriod : ResetPeriod

/-- Full parameter set (source interface `MortgageParams`); `startDate` is a
day number modelling the JS `Date`. -/
structure MortgageParams where
  purchasePrice : ℝ
  downPaymentPercent : ℝ
  additionalFinancing : ℝ
  cmhcPstRate : ℝ
  principal : ℝ
  amortizationYears : ℝ
  paymentFrequency : PaymentFrequency
  startDate : ℤ
  renewalPeriods : List RenewalPeriod
  additionalPayments : List AdditionalPayment
  prepaymentLimits : Option PrepaymentLimits

/-- Result record of `calculateMortgageWithInsurance`. -/
structure InsuranceDetails where
  downPayment : ℝ
  mortgageAmount : ℝ
  cmhcPremiumRate : ℝ
  cmhcInsurance : ℝ
  cmhcPst : ℝ
  cmhcPstRate : ℝ
  additionalFinancing : ℝ
  totalPrincipal : ℝ

/-- CMHC insurance premium rate keyed on the down-payment percentage;
the source throws below 5 percent, modelled by `Except.error`. -/
def getCMHCPremiumRate (downPaymentPercent : ℝ) : Except String ℝ :=
  if 20 ≤ downPaymentPercent then Except.ok 0
  else if 15 ≤ downPaymentPercent then Except.ok 0.028
  else if 10 ≤ downPaymentPercent then Except.ok 0.031
  else if 5 ≤ downPaymentPercent then Except.ok 0.04
  else Except.error "Down payment must be at least 5 percent for properties up to 500000"

/-- Insurance and total-principal derivation (source
`calculateMortgageWithInsurance`). -/
def calculateMortgageWithInsurance (purchasePrice downPaymentPercent additionalFinancing cmhcPstRate : ℝ) :
    Except String InsuranceDetails :=
  let downPayment := purchasePrice * (downPaymentPercent / 100)
  let mortgageAmount := purchasePrice - downPayment
  match getCMHCPremiumRate downPaymentPercent with
  | Except.error e => Except.error e
  | Except.ok cmhcPremiumRate =>
    let cmhcInsurance := mortgageAmount * cmhcPremiumRate
    let cmhcPst := cmhcInsurance * cmhcPstRate
    let totalPrincipal := mortgageAmount + cmhcInsurance + cmhcPst + additionalFinancing
    Except.ok
      { downPayment := downPayment
        mortgageAmount := mortgageAmount
        cmhcPremiumRate := cmhcPremiumRate
        cmhcInsurance := cmhcInsurance
        cmhcPst := cmhcPst
        cmhcPstRate := cmhcPstRate
        additionalFinancing := additionalFinancing
        totalPrincipal := totalPrincipal }

/-- Payments per year for a cadence (source `getPaymentsPerYear`). -/
def getPaymentsPerYear : PaymentFrequency → ℤ
  | PaymentFrequency.monthly => 12
  | PaymentFrequency.biWeekly => 26
  | PaymentFrequency.acceleratedBiWeekly => 26
  | PaymentFrequency.weekly => 52

/-- Effective rate per payment period under semi-annual compounding
(source `getPeriodicRate`); `Math.pow` is real exponentiation. -/
def getPeriodicRate (annualRate : ℝ) (frequency : PaymentFrequency) : ℝ :=
  let paymentsPerYear := getPaymentsPerYear frequency
  let semiAnnualRate := annualRate / 2
  (1 + semiAnnualRate) ^ ((2 : ℝ) / (paymentsPerYear : ℝ)) - 1

/-- Level payment amount (source `calculatePayment`). -/
def calculatePayment (principal periodicRate : ℝ) (numberOfPayments : ℤ) : ℝ :=
  if periodicRate = 0 then principal / (numberOfPayments : ℝ)
  else
    principal * (periodicRate * (1 + periodicRate) ^ ((numberOfPayments : ℝ))) /
      ((1 + periodicRate) ^ ((numberOfPayments : ℝ)) - 1)

/-- JavaScript `Math.round` (round half toward positive infinity). -/
def jsRound (x : ℝ) : ℤ := ⌊x + 1 / 2⌋

/-- Number of payments in a time period (source `getPaymentCount`). -/
def getPaymentCount (years : ℝ) (frequency : PaymentFrequency) : ℤ :=
  jsRound (years * (getPaymentsPerYear frequency : ℝ))

/-- Contribution of one additional-payment rule at a payment number: the body
of the loop in the source `getAdditionalPaymentAmount`.  The bare truthiness
test `addlPmt.endPayment &&` skips only when the field is present and nonzero;
`frequency || 1` treats both an absent and a zero interval as 1. -/
def additionalPaymentContribution (paymentNumber : ℤ) (ap : AdditionalPayment) : ℝ :=
  if ap.enabled = some false then 0
  else if paymentNumber < ap.startPayment then 0
  else if (match ap.endPayment with
           | some e => decide (¬ e = 0) && decide (e < paymentNumber)
           | none => false) then 0
  else
    match ap.type with
    | AdditionalPaymentType.oneTime =>
        if paymentNumber = ap.startPayment then ap.amount else 0
    | AdditionalPaymentType.recurring =>
        let frequency := match ap.frequency with
          | some f => if f = 0 then 1 else f
          | none => 1
        let paymentsSinceStart := paymentNumber - ap.startPayment
        if Int.tmod paymentsSinceStart frequency = 0 then ap.amount else 0

/-- Total additional payment due at a payment number (source
`getAdditionalPaymentAmount`). -/
def getAdditionalPaymentAmount (paymentNumber : ℤ) (additionalPayments : List AdditionalPayment) : ℝ :=
  (additionalPayments.map (additionalPaymentContribution paymentNumber)).sum

/-- Civil-calendar conversion: day number to (year, month 1..12, day),
proleptic Gregorian.  Models the calendar arithmetic of the JS `Date`. -/
def civilFromDays (z0 : ℤ) : ℤ × ℤ × ℤ :=
  let z := z0 + 719468
  let era := Int.fdiv z 146097
  let doe := z - era * 146097
  let yoe := Int.fdiv (doe - Int.fdiv doe 1460 + Int.fdiv doe 36524 - Int.fdiv doe 146096) 365
  let y := yoe + era * 400
  let doy := doe - (365 * yoe + Int.fdiv yoe 4 - Int.fdiv yoe 100)
  let mp := Int.fdiv (5 * doy + 2) 153
  let d := doy - Int.fdiv (153 * mp + 2) 5 + 1
  let m := if mp < 10 then mp + 3 else mp - 9
  (y + (if m ≤ 2 then 1 else 0), m, d)

/-- Civil-calendar conversion: (year, month 1..12, day) to day number. -/
def daysFromCivil (y0 m d : ℤ) : ℤ :=
  let y := y0 - (if m ≤ 2 then 1 else 0)
  let era := Int.fdiv y 400
  let yoe := y - era * 400
  let mp := if 2 < m then m - 3 else m + 9
  let doy := Int.fdiv (153 * mp + 2) 5 + d - 1
  let doe := yoe * 365 + Int.fdiv yoe 4 - Int.fdiv yoe 100 + doy
  era * 146097 + doe - 719468

/-- JS `date.getFullYear()` on the day-number model. -/
def yearOf (z : ℤ) : ℤ := (civilFromDays z).1

/-- JS `date.getMonth()` (0-based) on the day-number model. -/
def monthOf (z : ℤ) : ℤ := (civilFromDays z).2.1 - 1

/-- Day offset from the start date for a payment number (source
`getDaysForPayment`); monthly uses the 30.44-day average step. -/
def getDaysForPayment (paymentNumber : ℤ) (frequency : PaymentFrequency) : ℤ :=
  match frequency with
  | PaymentFrequency.monthly => jsRound (((paymentNumber - 1 : ℤ) : ℝ) * 30.44)
  | PaymentFrequency.biWeekly => (paymentNumber - 1) * 14
  | PaymentFrequency.acceleratedBiWeekly => (paymentNumber - 1) * 14
  | PaymentFrequency.weekly => (paymentNumber - 1) * 7

/-- Period identifier for prepayment limit tracking.  The source uses strings
(`year.toString()`, `anniversary-n`, initial `''`); the three shapes are
pairwise distinct as strings, so the inductive model preserves equality. -/
inductive PeriodId
  | initial
  | calendarYear (year : ℤ)
  | anniversaryYear (n : ℤ)
deriving DecidableEq

/-- Period identifier of a payment date (source `getPeriodIdentifier`);
`Math.floor` of the month quotient is `Int.fdiv`. -/
def getPeriodIdentifier (date startDate : ℤ) (resetPeriod : ResetPeriod) : PeriodId :=
  match resetPeriod with
  | ResetPeriod.calendar => PeriodId.calendarYear (yearOf date)
  | ResetPeriod.anniversary =>
      let monthsSinceStart := (yearOf date - yearOf startDate) * 12 + (monthOf date - monthOf startDate)
      PeriodId.anniversaryYear (Int.fdiv monthsSinceStart 12)

/-- One ledger row (source interface `PaymentDetail`); `exceedsLimit = false`
models the absent (`undefined`) field. -/
structure PaymentDetail where
  paymentNumber : ℤ
  paymentDate : ℤ
  payment : ℝ
  principal : ℝ
  interest : ℝ
  additionalPayment : ℝ
  balance : ℝ
  interestRate : ℝ
  termNumber : ℤ
  exceedsLimit : Bool

/-- The mutable accumulators of the main simulation loop. -/
structure LoopState where
  balance : ℝ
  totalInterestPaid : ℝ
  totalAdditionalPayments : ℝ
  paymentNumber : ℤ
  prepaymentLimitViolations : ℤ
  currentPeriodLumpSum : ℝ
  currentPeriodIdentifier : PeriodId

/-- Prepayment-limit bookkeeping for one extra payment: reset the running
period total on a new period identifier, add the amount, compare against the
annual lump-sum ceiling.  Mirrors the limit-check block of the main loop.
Returns (exceeds, new identifier, new running total). -/
def updateLimitTracking (originalPrincipal : ℝ) (limits : PrepaymentLimits)
    (periodId currentKey : PeriodId) (currentTotal extraAmount : ℝ) :
    Bool × PeriodId × ℝ :=
  let reset := if periodId ≠ currentKey then (periodId, (0 : ℝ)) else (currentKey, currentTotal)
  let newTotal := reset.2 + extraAmount
  let annualLumpSumLimit := originalPrincipal * (limits.lumpSumLimitPercent / 100)
  (if annualLumpSumLimit < newTotal then true else false, reset.1, newTotal)

/-- One iteration of the inner payment loop: interest, principal (capped at
the balance), additional payment (capped at the post-principal balance), the
payment date, and the limit check when limits are configured and the applied
extra is positive. -/
def payStep (params : MortgageParams) (term : RenewalPeriod) (termNumber : ℤ)
    (periodicRate payment : ℝ) (s : LoopState) : PaymentDetail × LoopState :=
  let interestPayment := s.balance * periodicRate
  let principalPayment := payment - interestPayment
  let actualPrincipalPayment := min principalPayment s.balance
  let actualPayment := actualPrincipalPayment + interestPayment
  let balance1 := s.balance - actualPrincipalPayment
  let additionalPayment := getAdditionalPaymentAmount s.paymentNumber params.additionalPayments
  let actualAdditionalPayment := min additionalPayment balance1
  let balance2 := balance1 - actualAdditionalPayment
  let paymentDate := params.startDate + getDaysForPayment s.paymentNumber params.paymentFrequency
  let check : Bool × PeriodId × ℝ :=
    match params.prepaymentLimits with
    | some limits =>
        if 0 < actualAdditionalPayment then
          updateLimitTracking params.principal limits
            (getPeriodIdentifier paymentDate params.startDate limits.resetPeriod)
            s.currentPeriodIdentifier s.currentPeriodLumpSum actualAdditionalPayment
        else (false, s.currentPeriodIdentifier, s.currentPeriodLumpSum)
    | none => (false, s.currentPeriodIdentifier, s.currentPeriodLumpSum)
  let entry : PaymentDetail :=
    { paymentNumber := s.paymentNumber
      paymentDate := paymentDate
      payment := actualPayment
      principal := actualPrincipalPayment
      interest := interestPayment
      additionalPayment := actualAdditionalPayment
      balance := max 0 balance2
      interestRate := term.annualRate
      termNumber := termNumber
      exceedsLimit := check.1 }
  (entry,
    { balance := balance2
      totalInterestPaid := s.totalInterestPaid + interestPayment
      totalAdditionalPayments := s.totalAdditionalPayments + actualAdditionalPayment
      paymentNumber := s.paymentNumber + 1
      prepaymentLimitViolations := s.prepaymentLimitViolations + (if check.1 then 1 else 0)
      currentPeriodLumpSum := check.2.2
      currentPeriodIdentifier := check.2.1 })

/-- The inner payment loop of one term: fueled by the term's payment-slot
count, guarded by `balance > 0.01` before every iteration, exactly as the
source `for` loop. -/
def runPayments (params : MortgageParams) (term : RenewalPeriod) (termNumber : ℤ)
    (periodicRate payment : ℝ) : ℕ → LoopState → List PaymentDetail × LoopState
  | 0, s => ([], s)
  | fuel + 1, s =>
    if 0.01 < s.balance then
      let step := payStep params term termNumber periodicRate payment s
      let rest := runPayments params term termNumber periodicRate payment fuel step.2
      (step.1 :: rest.1, rest.2)
    else ([], s)

/-- Exclusive end of a term given the remaining term list: the next term's
start minus one, or the nominal total for the last term (the source ternary
`nextTerm ? nextTerm.startPayment - 1 : totalPayments`). -/
def termEnd (totalPayments : ℤ) : List RenewalPeriod → ℤ
  | [] => totalPayments
  | next :: _ => next.startPayment - 1

/-- The outer loop over the sorted renewal periods: per term computes the slot
count, the remaining-payments count, the periodic rate and the level payment,
runs the inner loop, and stops the whole run when the balance drops below one
cent (source outer `for` with its `break`). -/
def runTerms (params : MortgageParams) (totalPayments : ℤ) :
    List RenewalPeriod → ℤ → LoopState → List PaymentDetail × LoopState
  | [], _, s => ([], s)
  | term :: rest, termNumber, s =>
    let termEndPayment := termEnd totalPayments rest
    let paymentsInTerm := termEndPayment - term.startPayment + 1
    let paymentsRemaining := totalPayments - s.paymentNumber + 1
    let periodicRate := getPeriodicRate term.annualRate params.paymentFrequency
    let payment := calculatePayment s.balance periodicRate paymentsRemaining
    let inner := runPayments params term termNumber periodicRate payment paymentsInTerm.toNat s
    if inner.2.balance < 0.01 then inner
    else
      let more := runTerms params totalPayments rest (termNumber + 1) inner.2
      (inner.1 ++ more.1, more.2)

/-- One iteration bundle of the shadow (no-prepayment) while loop: the state
is (balanceWithout, totalInterestWithout, currentPaymentNumber). -/
def runShadowPayments (periodicRate payment : ℝ) (termEndPayment totalPayments : ℤ) :
    ℕ → ℝ × ℝ × ℤ → ℝ × ℝ × ℤ
  | 0, st => st
  | fuel + 1, st =>
    if st.2.2 ≤ termEndPayment ∧ 0.01 < st.1 ∧ st.2.2 ≤ totalPayments then
      let interestPayment := st.1 * periodicRate
      let principalPayment := payment - interestPayment
      let actualPrincipalPayment := min principalPayment st.1
      runShadowPayments periodicRate payment termEndPayment totalPayments fuel
        (st.1 - actualPrincipalPayment, st.2.1 + interestPayment, st.2.2 + 1)
    else st

/-- The shadow recomputation over the renewal periods (source block computing
`totalInterestWithout`): identical terms and cadence, no prepayments, guarded
by `balanceWithout > 0.01` at each term. -/
def runShadowTerms (params : MortgageParams) (totalPayments : ℤ) :
    List RenewalPeriod → ℝ × ℝ × ℤ → ℝ × ℝ × ℤ
  | [], st => st
  | term :: rest, st =>
    if 0.01 < st.1 then
      let termEndPayment := termEnd totalPayments rest
      let paymentsRemaining := totalPayments - st.2.2 + 1
      let periodicRate := getPeriodicRate term.annualRate params.paymentFrequency
      let payment := calculatePayment st.1 periodicRate paymentsRemaining
      let fuel := (min termEndPayment totalPayments + 1 - st.2.2).toNat
      runShadowTerms params totalPayments rest
        (runShadowPayments periodicRate payment termEndPayment totalPayments fuel st)
    else st

/-- Interest of the no-prepayment shadow run. -/
def interestWithoutExtra (params : MortgageParams) (sortedPeriods : List RenewalPeriod)
    (totalPayments : ℤ) : ℝ :=
  (runShadowTerms params totalPayments sortedPeriods (params.principal, 0, 1)).2.1

/-- Summary block of the result (source `summary` object). -/
structure ScheduleSummary where
  purchasePrice : ℝ
  downPayment : ℝ
  downPaymentPercent : ℝ
  mortgageAmount : ℝ
  cmhcInsurance : ℝ
  cmhcPremiumRate : ℝ
  cmhcPst : ℝ
  cmhcPstRate : ℝ
  additionalFinancing : ℝ
  originalPrincipal : ℝ
  totalInterestPaid : ℝ
  totalPaid : ℝ
  totalAdditionalPayments : ℝ
  interestSaved : ℝ
  timeSaved : ℝ
  amortizationYears : ℝ
  actualPayoffMonths : ℤ
  paymentFrequency : PaymentFrequency
  prepaymentLimitViolations : Option ℤ

/-- Full result (source interface `AmortizationSchedule`). -/
structure AmortizationSchedule where
  payments : List PaymentDetail
  totalInterest : ℝ
  totalPrincipal : ℝ
  totalPayments : ℝ
  summary : ScheduleSummary

/-- The source sorts the renewal periods by start payment with a stable sort. -/
def sortRenewalPeriods (l : List RenewalPeriod) : List RenewalPeriod :=
  l.mergeSort (fun a b => decide (a.startPayment ≤ b.startPayment))

/-- Initial accumulator values of the main loop. -/
def initialLoopState (principal : ℝ) : LoopState :=
  { balance := principal
    totalInterestPaid := 0
    totalAdditionalPayments := 0
    paymentNumber := 1
    prepaymentLimitViolations := 0
    currentPeriodLumpSum := 0
    currentPeriodIdentifier := PeriodId.initial }

/-- The schedule produced after validation: main simulation, savings figures
(with the shadow run only when extra payments occurred), and summary. -/
def mainSchedule (params : MortgageParams) (insuranceDetails : InsuranceDetails) :
    AmortizationSchedule :=
  let totalPayments := getPaymentCount params.amortizationYears params.paymentFrequency
  let sortedPeriods := sortRenewalPeriods params.renewalPeriods
  let result := runTerms params totalPayments sortedPeriods 1 (initialLoopState params.principal)
  let payments := result.1
  let finalState := result.2
  let actualPayoffMonths :=
    jsRound ((payments.length : ℝ) / (getPaymentsPerYear params.paymentFrequency : ℝ) * 12)
  let originalPayoffMonths := params.amortizationYears * 12
  let timeSaved := originalPayoffMonths - (actualPayoffMonths : ℝ)
  let interestSaved :=
    if 0 < finalState.totalAdditionalPayments then
      max 0 (interestWithoutExtra params sortedPeriods totalPayments - finalState.totalInterestPaid)
    else 0
  { payments := payments
    totalInterest := finalState.totalInterestPaid
    totalPrincipal := params.principal
    totalPayments := (payments.map (fun p => p.payment)).sum
    summary :=
      { purchasePrice := params.purchasePrice
        downPayment := insuranceDetails.downPayment
        downPaymentPercent := params.downPaymentPercent
        mortgageAmount := insuranceDetails.mortgageAmount
        cmhcInsurance := insuranceDetails.cmhcInsurance
        cmhcPremiumRate := insuranceDetails.cmhcPremiumRate
        cmhcPst := insuranceDetails.cmhcPst
        cmhcPstRate := insuranceDetails.cmhcPstRate
        additionalFinancing := insuranceDetails.additionalFinancing
        originalPrincipal := params.principal
        totalInterestPaid := finalState.totalInterestPaid
        totalPaid := params.principal + finalState.totalInterestPaid
        totalAdditionalPayments := finalState.totalAdditionalPayments
        interestSaved := interestSaved
        timeSaved := timeSaved
        amortizationYears := params.amortizationYears
        actualPayoffMonths := actualPayoffMonths
        paymentFrequency := params.paymentFrequency
        prepaymentLimitViolations :=
          match params.prepaymentLimits with
          | some _ => some finalState.prepaymentLimitViolations
          | none => none } }

/-- Top-level engine (source `calculateAmortizationSchedule`): rejects an
empty renewal list, then derives insurance (which rejects a down payment
below 5 percent), then simulates. -/
def calculateAmortizationSchedule (params : MortgageParams) :
    Except String AmortizationSchedule :=
  if params.renewalPeriods.length = 0 then
    Except.error "At least one renewal period must be specified"
  else
    match calculateMortgageWithInsurance params.purchasePrice params.downPaymentPercent
        params.additionalFinancing params.cmhcPstRate with
    | Except.error e => Except.error e
    | Except.ok insuranceDetails => Except.ok (mainSchedule params insuranceDetails)

/-! Specification-side definitions, used to state the claims. -/

/-- Specification wording of the Prepayment Resolver firing condition
(spec section 4.4): the rule is active, the index lies in the window, and
the kind-specific condition holds, with the interval defaulting to 1. -/
def ruleFires (paymentIndex : ℤ) (r : AdditionalPayment) : Bool :=
  r.enabled.getD true &&
  decide (r.startPayment ≤ paymentIndex) &&
  (match r.endPayment with
   | none => true
   | some e => decide (paymentIndex ≤ e)) &&
  (match r.type with
   | AdditionalPaymentType.oneTime => decide (paymentIndex = r.startPayment)
   | AdditionalPaymentType.recurring =>
       decide ((paymentIndex - r.startPayment) % r.frequency.getD 1 = 0))

/-- Specification wording of the Prepayment Resolver contract: the sum of the
amounts of all rules that fire at the index. -/
def extraAmountAt (paymentIndex : ℤ) (rules : List AdditionalPayment) : ℝ :=
  (rules.map (fun r => if ruleFires paymentIndex r then r.amount else 0)).sum

/-- The ledger-chain invariant of the spec: every entry's payment splits into
principal plus interest, and every entry's balance is the predecessor balance
minus the entry's principal and extra payment, floored at zero. -/
def entriesChainFrom (prev : ℝ) : List PaymentDetail → Prop
  | [] => True
  | e :: rest =>
      e.payment = e.principal + e.interest ∧
      e.balance = max 0 (prev - e.principal - e.additionalPayment) ∧
      entriesChainFrom e.balance rest

/-- The pairwise balance recurrence between consecutive ledger entries. -/
def consecutiveBalancesOk : List PaymentDetail → Prop
  | [] => True
  | [_] => True
  | a :: b :: rest =>
      b.balance = max 0 (a.balance - b.principal - b.additionalPayment) ∧
      consecutiveBalancesOk (b :: rest)

/-- Balance column is non-increasing, starting from a given previous value. -/
def balancesNonincreasingFrom (prev : ℝ) : List PaymentDetail → Prop
  | [] => True
  | e :: rest => e.balance ≤ prev ∧ balancesNonincreasingFrom e.balance rest

/-- The pairwise non-increase of the balance column. -/
def balancesNonincreasing : List PaymentDetail → Prop
  | [] => True
  | [_] => True
  | a :: b :: rest => b.balance ≤ a.balance ∧ balancesNonincreasing (b :: rest)

/-- Balance of the last emitted entry, defaulting to the given previous value. -/
def lastBal : ℝ → List PaymentDetail → ℝ
  | prev, [] => prev
  | _, e :: l => lastBal e.balance l

/-- Pure balance path of a level-payment annuity: start at `B`, accrue rate
`ρ` and pay `P` each period. -/
def annuityPath (B P ρ : ℝ) : ℕ → ℝ
  | 0 => B
  | k + 1 => annuityPath B P ρ k * (1 + ρ) - P

/-- Geometric accumulator `(1+ρ)^(k-1) + ... + 1` used to close the annuity
path recurrence. -/
def geomSum (ρ : ℝ) : ℕ → ℝ
  | 0 => 0
  | k + 1 => geomSum ρ k * (1 + ρ) + 1

/-! Concrete inputs used by witnesses and counterexamples. -/

/-- Insurance details for purchase price 625000 at 10 percent down. -/
def ins10 : InsuranceDetails :=
  ⟨62500, 562500, 0.031, 17437.5, 0, 0, 0, 579937.5⟩

/-- Insurance details for purchase price 500000 at 20 percent down. -/
def ins20 : InsuranceDetails :=
  ⟨100000, 400000, 0, 0, 0, 0, 0, 400000⟩

/-- Accepted parameter set whose `principal` field (100) differs from the
Insurance Calculator total for its purchase parameters (579937.50): a
two-payment zero-rate mortgage. -/
def cexParams1 : MortgageParams :=
  { purchasePrice := 625000
    downPaymentPercent := 10
    additionalFinancing := 0
    cmhcPstRate := 0
    principal := 100
    amortizationYears := 1 / 6
    paymentFrequency := PaymentFrequency.monthly
    startDate := 0
    renewalPeriods := [⟨1, 0, 5⟩]
    additionalPayments := []
    prepaymentLimits := none }

/-- Valid-per-claim parameter set whose single renewal period starts at
payment 2, so the level payment is sized for two remaining payments but only
one slot exists and the run ends with balance 50. -/
def cexParams3 : MortgageParams :=
  { purchasePrice := 625000
    downPaymentPercent := 10
    additionalFinancing := 0
    cmhcPstRate := 0
    principal := 100
    amortizationYears := 1 / 6
    paymentFrequency := PaymentFrequency.monthly
    startDate := 0
    renewalPeriods := [⟨2, 0, 5⟩]
    additionalPayments := []
    prepaymentLimits := none }

/-- Well-formed two-payment zero-rate parameter set (first term starts at 1). -/
def w3Params : MortgageParams :=
  { purchasePrice := 625000
    downPaymentPercent := 10
    additionalFinancing := 0
    cmhcPstRate := 0
    principal := 100
    amortizationYears := 1 / 6
    paymentFrequency := PaymentFrequency.monthly
    startDate := 0
    renewalPeriods := [⟨1, 0, 5⟩]
    additionalPayments := []
    prepaymentLimits := none }

/-- First term of the two-term witness mortgage: rate zero from payment 1. -/
def w4t1 : RenewalPeriod := ⟨1, 0, 5⟩

/-- Second term of the two-term witness mortgage: rate zero from payment 61. -/
def w4t2 : RenewalPeriod := ⟨61, 0, 20⟩

/-- Two-term 25-year monthly parameter set with the second term starting at
payment 61, both terms at rate zero, principal 300. -/
def w4Params : MortgageParams :=
  { purchasePrice := 500000
    downPaymentPercent := 20
    additionalFinancing := 0
    cmhcPstRate := 0
    principal := 300
    amortizationYears := 25
    paymentFrequency := PaymentFrequency.monthly
    startDate := 0
    renewalPeriods := [w4t1, w4t2]
    additionalPayments := []
    prepaymentLimits := none }

/-- State of the witness run after the 60 payments of the first term. -/
def w4Sigma : LoopState :=
  (runPayments w4Params w4t1 1 (getPeriodicRate w4t1.annualRate w4Params.paymentFrequency)
    (calculatePayment w4Params.principal
      (getPeriodicRate w4t1.annualRate w4Params.paymentFrequency) 300)
    60 (initialLoopState w4Params.principal)).2

/-- Recurring extra payment of 50000 at payments 1 and 2. -/
def w5Rule : AdditionalPayment :=
  ⟨AdditionalPaymentType.recurring, 50000, 1, some 2, some 1, none⟩

/-- Limit-tracking scenario: principal 562500, lump-sum limit 15 percent,
anniversary reset, two 50000 recurring extras landing in the first
anniversary period.  Start date 18262 is 2020-01-01. -/
def w5Params : MortgageParams :=
  { purchasePrice := 625000
    downPaymentPercent := 10
    additionalFinancing := 0
    cmhcPstRate := 0
    principal := 562500
    amortizationYears := 1 / 2
    paymentFrequency := PaymentFrequency.monthly
    startDate := 18262
    renewalPeriods := [⟨1, 0, 1⟩]
    additionalPayments := [w5Rule]
    prepaymentLimits := some ⟨15, 15, ResetPeriod.anniversary⟩ }

/-- Annual rate whose monthly periodic rate is exactly 1/100 under
semi-annual compounding: `2 * (1.01^6 - 1)`. -/
def w6Rate : ℝ := 61520150601 / 500000000000

/-- One-time extra payment of 10000 at payment 12. -/
def w6Rule : AdditionalPayment :=
  ⟨AdditionalPaymentType.oneTime, 10000, 12, none, none, none⟩

/-- First term of the savings scenario: rate zero from payment 1. -/
def w6t1 : RenewalPeriod := ⟨1, 0, 1⟩

/-- Second term of the savings scenario: periodic rate 1/100 from payment 13. -/
def w6t2 : RenewalPeriod := ⟨13, w6Rate, 1⟩

/-- Savings scenario: fourteen monthly payments, first term (payments 1-12)
at rate zero, second term at periodic rate 1/100, one-time extra of 10000 at
payment 12. -/
def w6Params : MortgageParams :=
  { purchasePrice := 500000
    downPaymentPercent := 20
    additionalFinancing := 0
    cmhcPstRate := 0
    principal := 140000
    amortizationYears := 14 / 12
    paymentFrequency := PaymentFrequency.monthly
    startDate := 0
    renewalPeriods := [w6t1, w6t2]
    additionalPayments := [w6Rule]
    prepaymentLimits := none }

/-- First ledger entry of the two-payment zero-rate run on principal 100. -/
def w1Entry : PaymentDetail := ⟨1, 0, 50, 50, 0, 0, 50, 0, 1, false⟩

/-- Second ledger entry of the two-payment zero-rate run on principal 100. -/
def w2Entry : PaymentDetail := ⟨2, 30, 50, 50, 0, 0, 0, 0, 1, false⟩

/-- Rule list for the Prepayment Resolver witness: a one-time rule at 3, a
recurring rule every 2 payments on 2..10, and a disabled rule. -/
def w9Rules : List AdditionalPayment :=
  [⟨AdditionalPaymentType.oneTime, 100, 3, none, none, none⟩,
   ⟨AdditionalPaymentType.recurring, 50, 2, some 10, some 2, none⟩,
   ⟨AdditionalPaymentType.recurring, 77, 1, none, none, some false⟩]

end

/-! Helper lemmas. -/

noncomputable section

theorem getPeriodicRate_zero (f : PaymentFrequency) : getPeriodicRate 0 f = 0 := by
  simp [getPeriodicRate, Real.one_rpow]

theorem getPeriodicRate_w6 :
    getPeriodicRate w6Rate PaymentFrequency.monthly = 1 / 100 := by
  have h1 : (1 : ℝ) + w6Rate / 2 = ((101 : ℝ) / 100) ^ (6 : ℕ) := by
    norm_num [w6Rate]
  have h2 : ((2 : ℝ) / ((getPaymentsPerYear PaymentFrequency.monthly : ℤ) : ℝ)) =
      (((6 : ℕ) : ℝ))⁻¹ := by
    norm_num [getPaymentsPerYear]
  rw [getPeriodicRate, h1, h2, Real.pow_rpow_inv_natCast (by norm_num) (by norm_num)]
  norm_num

/-! Claim C7: the Insurance Calculator. -/

/-- C7: for every purchasePrice > 0, extraFinancing ≥ 0, surtaxRate ≥ 0 and
down-payment percentage p ≥ 5, the calculator succeeds, returns the premium
rate of the claimed tier table, and its outputs satisfy
loanAmount = purchasePrice * (1 - p/100), premiumAmount = loanAmount *
premiumRate, surtaxAmount = premiumAmount * surtaxRate, and
totalPrincipal = loanAmount + premiumAmount + surtaxAmount + extraFinancing;
purchase price 625000 at p = 10 yields premium 17437.50. -/
theorem claim_C7 (pp p ef sr : ℝ) (hpp : 0 < pp) (hef : 0 ≤ ef) (hsr : 0 ≤ sr) (hp : 5 ≤ p) :
    ((calculateMortgageWithInsurance pp p ef sr).toOption.isSome = true ∧
      ∀ r, (calculateMortgageWithInsurance pp p ef sr).toOption = some r →
        ((20 ≤ p → r.cmhcPremiumRate = 0) ∧
         (15 ≤ p ∧ p < 20 → r.cmhcPremiumRate = 0.028) ∧
         (10 ≤ p ∧ p < 15 → r.cmhcPremiumRate = 0.031) ∧
         (5 ≤ p ∧ p < 10 → r.cmhcPremiumRate = 0.04) ∧
         r.mortgageAmount = pp * (1 - p / 100) ∧
         r.cmhcInsurance = r.mortgageAmount * r.cmhcPremiumRate ∧
         r.cmhcPst = r.cmhcInsurance * sr ∧
         r.totalPrincipal = r.mortgageAmount + r.cmhcInsurance + r.cmhcPst + ef)) ∧
    (calculateMortgageWithInsurance 625000 10 0 0).toOption = some ins10 ∧
    ins10.cmhcInsurance = 17437.5 := by
  refine ⟨⟨?_, ?_⟩, ?_, by norm_num [ins10]⟩
  · unfold calculateMortgageWithInsurance getCMHCPremiumRate
    split_ifs with h1 h2 h3 h4
    · simp [Except.toOption]
    · simp [Except.toOption]
    · simp [Except.toOption]
    · simp [Except.toOption]
  · intro r hr
    unfold calculateMortgageWithInsurance getCMHCPremiumRate at hr
    split_ifs at hr with h1 h2 h3 h4
    · simp only [Except.toOption, Option.some.injEq] at hr
      subst hr
      exact ⟨fun _ => rfl, fun h => by exfalso; linarith [h.2],
        fun h => by exfalso; linarith [h.2], fun h => by exfalso; linarith [h.2],
        by ring, rfl, rfl, rfl⟩
    · rw [not_le] at h1
      simp only [Except.toOption, Option.some.injEq] at hr
      subst hr
      exact ⟨fun h => by exfalso; linarith, fun _ => rfl,
        fun h => by exfalso; linarith [h.2], fun h => by exfalso; linarith [h.2],
        by ring, rfl, rfl, rfl⟩
    · rw [not_le] at h1 h2
      simp only [Except.toOption, Option.some.injEq] at hr
      subst hr
      exact ⟨fun h => by exfalso; linarith, fun h => by exfalso; linarith [h.1],
        fun _ => rfl, fun h => by exfalso; linarith [h.2],
        by ring, rfl, rfl, rfl⟩
    · rw [not_le] at h1 h2 h3
      simp only [Except.toOption, Option.some.injEq] at hr
      subst hr
      exact ⟨fun h => by exfalso; linarith, fun h => by exfalso; linarith [h.1],
        fun h => by exfalso; linarith [h.1], fun _ => rfl,
        by ring, rfl, rfl, rfl⟩
  · norm_num [calculateMortgageWithInsurance, getCMHCPremiumRate, Except.toOption, ins10]

/-- C7 witness: the calculator evaluated at purchase price 625000, 10 percent
down, no extra financing, no surtax. -/
theorem claim_C7_witness :
    (calculateMortgageWithInsurance 625000 10 0 0).toOption.isSome = true ∧
    ins10.cmhcPremiumRate = 0.031 ∧
    ins10.totalPrincipal = ins10.mortgageAmount + ins10.cmhcInsurance + ins10.cmhcPst + 0 := by
  have h := claim_C7 625000 10 0 0 (by norm_num) (by norm_num) (by norm_num) (by norm_num)
  exact ⟨h.1.1, ((h.1.2 ins10 h.2.1).2.2.1 ⟨by norm_num, by norm_num⟩).trans (by norm_num [ins10]),
    (h.1.2 ins10 h.2.1).2.2.2.2.2.2.2⟩

/-! Claim C8: the Rate Converter. -/

/-- C8: for every annual rate ≥ 0 and cadence, the periodic rate is
`(1 + annualRate/2) ^ (2 / paymentsPerYear) - 1`, with payments per year 12
for monthly, 52 for weekly, and 26 for biweekly and accelerated biweekly. -/
theorem claim_C8 (annualRate : ℝ) (f : PaymentFrequency) (h : 0 ≤ annualRate) :
    getPeriodicRate annualRate f =
      (1 + annualRate / 2) ^ ((2 : ℝ) / (getPaymentsPerYear f : ℝ)) - 1 ∧
    getPaymentsPerYear PaymentFrequency.monthly = 12 ∧
    getPaymentsPerYear PaymentFrequency.weekly = 52 ∧
    getPaymentsPerYear PaymentFrequency.biWeekly = 26 ∧
    getPaymentsPerYear PaymentFrequency.acceleratedBiWeekly = 26 :=
  ⟨rfl, rfl, rfl, rfl, rfl⟩

/-- C8 witness: the converter at annual rate 0 on the monthly cadence. -/
theorem claim_C8_witness :
    getPeriodicRate 0 PaymentFrequency.monthly =
      (1 + (0 : ℝ) / 2) ^ ((2 : ℝ) / (getPaymentsPerYear PaymentFrequency.monthly : ℝ)) - 1 ∧
    getPaymentsPerYear PaymentFrequency.monthly = 12 ∧
    getPaymentsPerYear PaymentFrequency.weekly = 52 ∧
    getPaymentsPerYear PaymentFrequency.biWeekly = 26 ∧
    getPaymentsPerYear PaymentFrequency.acceleratedBiWeekly = 26 :=
  claim_C8 0 PaymentFrequency.monthly (by norm_num)

/-! Claim C10: input validation. -/

/-- C10: the engine fails exactly when the renewal-period list is empty or the
down-payment percentage is below 5; in the `Except` model the error carries no
partial ledger or summary. -/
theorem claim_C10 (params : MortgageParams) :
    (∃ e, calculateAmortizationSchedule params = Except.error e) ↔
      (params.renewalPeriods = [] ∨ params.downPaymentPercent < 5) := by
  unfold calculateAmortizationSchedule
  by_cases hempty : params.renewalPeriods.length = 0
  · rw [if_pos hempty]
    simp [List.length_eq_zero.mp hempty]
  · rw [if_neg hempty]
    have hne : params.renewalPeriods ≠ [] := by
      intro h
      exact hempty (by simp [h])
    unfold calculateMortgageWithInsurance getCMHCPremiumRate
    split_ifs with h1 h2 h3 h4
    · simp [hne]
      linarith
    · simp [hne]
      linarith
    · simp [hne]
      linarith
    · simp [hne]
      linarith
    · rw [not_le] at h4
      exact ⟨fun _ => Or.inr h4, fun _ => ⟨_, rfl⟩⟩

/-! Claim C9: the Prepayment Resolver. -/

/-- Each source-loop contribution agrees with the specification firing rule
when the optional interval and end bound are positive integers. -/
theorem contribution_eq_spec (pn : ℤ) (r : AdditionalPayment)
    (hf : ∀ f ∈ r.frequency, 0 < f) (he : ∀ e ∈ r.endPayment, 0 < e) :
    additionalPaymentContribution pn r = if ruleFires pn r then r.amount else 0 := by
  unfold additionalPaymentContribution ruleFires
  by_cases hdis : r.enabled = some false
  · rw [if_pos hdis, hdis]
    simp
  · have hen : r.enabled.getD true = true := by
      rcases hv : r.enabled with _ | b
      · rfl
      · cases b
        · exact absurd hv hdis
        · rfl
    rw [if_neg hdis, hen]
    by_cases hlt : pn < r.startPayment
    · rw [if_pos hlt]
      have hd : decide (r.startPayment ≤ pn) = false := by
        simp [not_le.mpr hlt]
      simp [hd]
    · have hge : decide (r.startPayment ≤ pn) = true := by
        simp [not_lt.mp hlt]
      rw [if_neg hlt, hge]
      rcases hEnd : r.endPayment with _ | e
      · rcases hTy : r.type with _ | _
        · simp
        · rcases hFr : r.frequency with _ | fq
          · have ht : Int.tmod (pn - r.startPayment) 1 = (pn - r.startPayment) % 1 :=
              Int.tmod_eq_emod (by omega) (by norm_num)
            simp [hFr, ht]
          · have hfpos := hf fq (by simp [hFr])
            have ht : Int.tmod (pn - r.startPayment) fq = (pn - r.startPayment) % fq :=
              Int.tmod_eq_emod (by omega) (le_of_lt hfpos)
            simp [hFr, hfpos.ne', ht]
      · have hepos := he e (by simp [hEnd])
        by_cases hpe : e < pn
        · have hskip : (decide (¬ e = 0) && decide (e < pn)) = true := by
            simp [hepos.ne', hpe]
          have hsp : decide (pn ≤ e) = false := by
            simp [not_le.mpr hpe]
          rw [if_pos hskip]
          simp [hsp]
        · have hskip : (decide (¬ e = 0) && decide (e < pn)) = false := by
            simp [hpe]
          have hsp : decide (pn ≤ e) = true := by
            simp [not_lt.mp hpe]
          rw [if_neg (by simp [hskip]; omega)]
          rcases hTy : r.type with _ | _
          · simp [hsp]
          · rcases hFr : r.frequency with _ | fq
            · have ht : Int.tmod (pn - r.startPayment) 1 = (pn - r.startPayment) % 1 :=
                Int.tmod_eq_emod (by omega) (by norm_num)
              simp [hFr, ht, hsp]
            · have hfpos := hf fq (by simp [hFr])
              have ht : Int.tmod (pn - r.startPayment) fq = (pn - r.startPayment) % fq :=
                Int.tmod_eq_emod (by omega) (le_of_lt hfpos)
              simp [hFr, hfpos.ne', ht, hsp]

/-- C9: the resolved extra amount is the sum of the amounts of all active
rules whose window contains the index, with a single rule firing only at its
start index and a recurring rule firing on its interval grid (interval
defaulting to 1), for rule lists whose optional interval and end bound are
positive (as the data model declares). -/
theorem claim_C9 (paymentIndex : ℤ) (rules : List AdditionalPayment)
    (hfreq : ∀ r ∈ rules, ∀ f ∈ r.frequency, 0 < f)
    (hend : ∀ r ∈ rules, ∀ e ∈ r.endPayment, 0 < e) :
    getAdditionalPaymentAmount paymentIndex rules = extraAmountAt paymentIndex rules := by
  induction rules with
  | nil => rfl
  | cons r rs ih =>
    have hr1 := hfreq r (List.mem_cons_self r rs)
    have hr2 := hend r (List.mem_cons_self r rs)
    have ihh := ih (fun x hx => hfreq x (List.mem_cons_of_mem r hx))
      (fun x hx => hend x (List.mem_cons_of_mem r hx))
    unfold getAdditionalPaymentAmount extraAmountAt at *
    simp only [List.map_cons, List.sum_cons]
    rw [contribution_eq_spec paymentIndex r hr1 hr2, ihh]

/-- C9 witness: the resolver at index 6 on a one-time rule at 3, an enabled
recurring rule every 2 payments over 2..10, and a disabled rule. -/
theorem claim_C9_witness :
    getAdditionalPaymentAmount 6 w9Rules = extraAmountAt 6 w9Rules ∧
    extraAmountAt 6 w9Rules = 50 := by
  constructor
  · exact claim_C9 6 w9Rules
      (by intro r hr f hf
          fin_cases hr <;> simp_all <;> omega)
      (by intro r hr e he
          fin_cases hr <;> simp_all <;> omega)
  · simp [extraAmountAt, w9Rules, ruleFires]

/-! Ledger-chain infrastructure for claims C1, C2 and C3. -/

theorem lastBal_nil (a : ℝ) : lastBal a [] = a := rfl

theorem lastBal_cons (a : ℝ) (e : PaymentDetail) (l : List PaymentDetail) :
    lastBal a (e :: l) = lastBal e.balance l := rfl

theorem lastBal_append (a : ℝ) (l1 l2 : List PaymentDetail) :
    lastBal a (l1 ++ l2) = lastBal (lastBal a l1) l2 := by
  induction l1 generalizing a with
  | nil => simp [lastBal_nil]
  | cons e l ih => simp [lastBal_cons, ih]

theorem entriesChainFrom_append {a : ℝ} {l1 l2 : List PaymentDetail}
    (h1 : entriesChainFrom a l1) (h2 : entriesChainFrom (lastBal a l1) l2) :
    entriesChainFrom a (l1 ++ l2) := by
  induction l1 generalizing a with
  | nil => simpa [lastBal_nil] using h2
  | cons e l ih =>
      rw [lastBal_cons] at h2
      exact ⟨h1.1, h1.2.1, ih h1.2.2 h2⟩

theorem payStep_entry_payment (params : MortgageParams) (term : RenewalPeriod) (tn : ℤ)
    (ρ P : ℝ) (s : LoopState) :
    (payStep params term tn ρ P s).1.payment =
      (payStep params term tn ρ P s).1.principal + (payStep params term tn ρ P s).1.interest := rfl

theorem payStep_entry_balance_link (params : MortgageParams) (term : RenewalPeriod) (tn : ℤ)
    (ρ P : ℝ) (s : LoopState) :
    (payStep params term tn ρ P s).1.balance =
      max 0 (s.balance - (payStep params term tn ρ P s).1.principal -
        (payStep params term tn ρ P s).1.additionalPayment) := rfl

theorem payStep_entry_balance (params : MortgageParams) (term : RenewalPeriod) (tn : ℤ)
    (ρ P : ℝ) (s : LoopState) :
    (payStep params term tn ρ P s).1.balance = max 0 (payStep params term tn ρ P s).2.balance := rfl

theorem payStep_state_balance (params : MortgageParams) (term : RenewalPeriod) (tn : ℤ)
    (ρ P : ℝ) (s : LoopState) :
    (payStep params term tn ρ P s).2.balance =
      s.balance - min (P - s.balance * ρ) s.balance -
        min (getAdditionalPaymentAmount s.paymentNumber params.additionalPayments)
          (s.balance - min (P - s.balance * ρ) s.balance) := rfl

theorem payStep_state_nonneg (params : MortgageParams) (term : RenewalPeriod) (tn : ℤ)
    (ρ P : ℝ) (s : LoopState) (hs : 0 ≤ s.balance) :
    0 ≤ (payStep params term tn ρ P s).2.balance := by
  rw [payStep_state_balance]
  have h1 := min_le_right (P - s.balance * ρ) s.balance
  have h2 := min_le_right (getAdditionalPaymentAmount s.paymentNumber params.additionalPayments)
    (s.balance - min (P - s.balance * ρ) s.balance)
  linarith

theorem runPayments_chain (params : MortgageParams) (term : RenewalPeriod) (tn : ℤ)
    (ρ P : ℝ) (fuel : ℕ) (s : LoopState) (hs : 0 ≤ s.balance) :
    entriesChainFrom s.balance (runPayments params term tn ρ P fuel s).1 ∧
    0 ≤ (runPayments params term tn ρ P fuel s).2.balance ∧
    lastBal s.balance (runPayments params term tn ρ P fuel s).1 =
      (runPayments params term tn ρ P fuel s).2.balance := by
  induction fuel generalizing s with
  | zero => exact ⟨trivial, hs, rfl⟩
  | succ fuel ih =>
      rw [runPayments]
      by_cases hg : (0.01 : ℝ) < s.balance
      · rw [if_pos hg]
        dsimp only
        have hb2 := payStep_state_nonneg params term tn ρ P s hs
        obtain ⟨ih1, ih2, ih3⟩ := ih (payStep params term tn ρ P s).2 hb2
        have hmax : (payStep params term tn ρ P s).1.balance =
            (payStep params term tn ρ P s).2.balance := by
          rw [payStep_entry_balance, max_eq_right hb2]
        refine ⟨⟨payStep_entry_payment params term tn ρ P s, ?_, ?_⟩, ih2, ?_⟩
        · exact payStep_entry_balance_link params term tn ρ P s
        · rw [hmax]
          exact ih1
        · rw [lastBal_cons, hmax]
          exact ih3
      · rw [if_neg hg]
        exact ⟨trivial, hs, rfl⟩

theorem runTerms_chain (params : MortgageParams) (N : ℤ) (ts : List RenewalPeriod) (tn : ℤ)
    (s : LoopState) (hs : 0 ≤ s.balance) :
    entriesChainFrom s.balance (runTerms params N ts tn s).1 ∧
    0 ≤ (runTerms params N ts tn s).2.balance ∧
    lastBal s.balance (runTerms params N ts tn s).1 = (runTerms params N ts tn s).2.balance := by
  induction ts generalizing tn s with
  | nil => exact ⟨trivial, hs, rfl⟩
  | cons term rest ih =>
      rw [runTerms.eq_def]
      dsimp only
      obtain ⟨h1, h2, h3⟩ := runPayments_chain params term tn
        (getPeriodicRate term.annualRate params.paymentFrequency)
        (calculatePayment s.balance (getPeriodicRate term.annualRate params.paymentFrequency)
          (N - s.paymentNumber + 1))
        ((termEnd N rest - term.startPayment + 1).toNat) s hs
      by_cases hb : (runPayments params term tn
          (getPeriodicRate term.annualRate params.paymentFrequency)
          (calculatePayment s.balance (getPeriodicRate term.annualRate params.paymentFrequency)
            (N - s.paymentNumber + 1))
          ((termEnd N rest - term.startPayment + 1).toNat) s).2.balance < 0.01
      · rw [if_pos hb]
        exact ⟨h1, h2, h3⟩
      · rw [if_neg hb]
        dsimp only
        obtain ⟨g1, g2, g3⟩ := ih (tn + 1) _ h2
        exact ⟨entriesChainFrom_append h1 (h3 ▸ g1), g2, by rw [lastBal_append, h3]; exact g3⟩

theorem chain_payment_eq {a : ℝ} {l : List PaymentDetail} (h : entriesChainFrom a l) :
    ∀ e ∈ l, e.payment = e.principal + e.interest := by
  induction l generalizing a with
  | nil => intro e he; cases he
  | cons x t ih =>
      intro e he
      rcases List.mem_cons.mp he with rfl | hm
      · exact h.1
      · exact ih h.2.2 e hm

theorem chain_consecutive {a : ℝ} {l : List PaymentDetail} (h : entriesChainFrom a l) :
    consecutiveBalancesOk l := by
  induction l generalizing a with
  | nil => trivial
  | cons x t ih =>
      cases t with
      | nil => trivial
      | cons y u => exact ⟨h.2.2.2.1, ih h.2.2⟩

/-- Unpacks a successful engine run into its insurance record and schedule. -/
theorem run_ok_elim (p : MortgageParams) (s : AmortizationSchedule)
    (hok : calculateAmortizationSchedule p = Except.ok s) :
    ∃ ins, calculateMortgageWithInsurance p.purchasePrice p.downPaymentPercent
        p.additionalFinancing p.cmhcPstRate = Except.ok ins ∧ s = mainSchedule p ins := by
  unfold calculateAmortizationSchedule at hok
  by_cases hlen : p.renewalPeriods.length = 0
  · rw [if_pos hlen] at hok
    exact absurd hok (by simp)
  · rw [if_neg hlen] at hok
    rcases hins : calculateMortgageWithInsurance p.purchasePrice p.downPaymentPercent
        p.additionalFinancing p.cmhcPstRate with e | ins
    · rw [hins] at hok
      exact absurd hok (by simp)
    · rw [hins] at hok
      simp only at hok
      exact ⟨ins, rfl, (Except.ok.inj hok).symm⟩

theorem mainSchedule_payments (p : MortgageParams) (ins : InsuranceDetails) :
    (mainSchedule p ins).payments =
      (runTerms p (getPaymentCount p.amortizationYears p.paymentFrequency)
        (sortRenewalPeriods p.renewalPeriods) 1 (initialLoopState p.principal)).1 := rfl

/-- The full main-run ledger chains from the engine principal parameter. -/
theorem schedule_chain (p : MortgageParams) (s : AmortizationSchedule)
    (hok : calculateAmortizationSchedule p = Except.ok s) (h0 : 0 ≤ p.principal) :
    entriesChainFrom p.principal s.payments := by
  obtain ⟨ins, _, hmain⟩ := run_ok_elim p s hok
  rw [hmain, mainSchedule_payments]
  exact (runTerms_chain p (getPaymentCount p.amortizationYears p.paymentFrequency)
    (sortRenewalPeriods p.renewalPeriods) 1 (initialLoopState p.principal) h0).1

/-! Claim C2: per-entry and consecutive-entry ledger invariants. -/

/-- C2: in every accepted run with nonnegative principal, each entry's payment
equals its principal plus interest exactly, and each consecutive balance obeys
`balance[i] = max 0 (balance[i-1] - principal[i] - extra[i])`. -/
theorem claim_C2 (p : MortgageParams) (s : AmortizationSchedule)
    (hok : calculateAmortizationSchedule p = Except.ok s) (h0 : 0 ≤ p.principal) :
    (∀ e ∈ s.payments, e.payment = e.principal + e.interest) ∧
    consecutiveBalancesOk s.payments := by
  have h := schedule_chain p s hok h0
  exact ⟨chain_payment_eq h, chain_consecutive h⟩

theorem run_cexParams1 :
    calculateAmortizationSchedule cexParams1 = Except.ok (mainSchedule cexParams1 ins10) := by
  norm_num [calculateAmortizationSchedule, cexParams1, calculateMortgageWithInsurance,
    getCMHCPremiumRate, ins10]

theorem payments_cexParams1 :
    (mainSchedule cexParams1 ins10).payments = [w1Entry, w2Entry] := by
  norm_num [mainSchedule, cexParams1, sortRenewalPeriods, List.mergeSort_singleton,
    getPaymentCount, jsRound, getPaymentsPerYear, initialLoopState, runTerms, termEnd,
    getPeriodicRate_zero, calculatePayment, runPayments, payStep, getDaysForPayment,
    getAdditionalPaymentAmount, w1Entry, w2Entry]

/-- C2 witness: the invariants evaluated on the two-payment zero-rate run. -/
theorem claim_C2_witness :
    (∀ e ∈ (mainSchedule cexParams1 ins10).payments, e.payment = e.principal + e.interest) ∧
    consecutiveBalancesOk (mainSchedule cexParams1 ins10).payments :=
  claim_C2 cexParams1 (mainSchedule cexParams1 ins10) run_cexParams1 (by norm_num [cexParams1])

/-! Claim C1: the starting balance of the simulation. -/

/-- C1 counterexample: the engine accepts `cexParams1` (purchase price 625000
at 10 percent down, but `principal` parameter 100); the predecessor of ledger
entry 1, reconstructed as balance + principal + extra of the first entry, is
100, whereas the Insurance Calculator total for those parameters is 579937.50. -/
theorem claim_C1_counterexample :
    calculateAmortizationSchedule cexParams1 = Except.ok (mainSchedule cexParams1 ins10) ∧
    (mainSchedule cexParams1 ins10).payments.head? = some w1Entry ∧
    w1Entry.balance + w1Entry.principal + w1Entry.additionalPayment = 100 ∧
    calculateMortgageWithInsurance cexParams1.purchasePrice cexParams1.downPaymentPercent
        cexParams1.additionalFinancing cexParams1.cmhcPstRate = Except.ok ins10 ∧
    ins10.totalPrincipal = 579937.5 ∧
    (100 : ℝ) ≠ 579937.5 := by
  refine ⟨run_cexParams1, by rw [payments_cexParams1]; rfl, by norm_num [w1Entry], ?_, ?_, ?_⟩
  · norm_num [cexParams1, calculateMortgageWithInsurance, getCMHCPremiumRate, ins10]
  · norm_num [ins10]
  · norm_num

/-- C1 (amended): the predecessor of ledger entry 1 is the `principal`
parameter of the engine, not the Insurance Calculator output; when the caller
sets `principal` to the calculator's `totalPrincipal` (as the application
does), the original claim holds. -/
theorem claim_C1 (p : MortgageParams) (s : AmortizationSchedule)
    (hok : calculateAmortizationSchedule p = Except.ok s) (h0 : 0 ≤ p.principal)
    (e : PaymentDetail) (he : s.payments.head? = some e) :
    e.balance = max 0 (p.principal - e.principal - e.additionalPayment) ∧
    ∀ r, calculateMortgageWithInsurance p.purchasePrice p.downPaymentPercent
        p.additionalFinancing p.cmhcPstRate = Except.ok r →
      p.principal = r.totalPrincipal →
      e.balance = max 0 (r.totalPrincipal - e.principal - e.additionalPayment) := by
  have h := schedule_chain p s hok h0
  cases hl : s.payments with
  | nil =>
      rw [hl] at he
      cases he
  | cons x t =>
      rw [hl] at he h
      have hx : x = e := by
        simpa using he
      subst hx
      exact ⟨h.2.1, fun r _ hpr => by rw [← hpr]; exact h.2.1⟩

/-- C1 witness: the first-entry link evaluated on the two-payment run. -/
theorem claim_C1_witness :
    w1Entry.balance = max 0 (cexParams1.principal - w1Entry.principal - w1Entry.additionalPayment) := by
  have he : (mainSchedule cexParams1 ins10).payments.head? = some w1Entry := by
    rw [payments_cexParams1]
    rfl
  exact (claim_C1 cexParams1 (mainSchedule cexParams1 ins10) run_cexParams1
    (by norm_num [cexParams1]) w1Entry he).1

/-! Claim C3 counterexample: a term starting past payment 1. -/

theorem run_cexParams3 :
    calculateAmortizationSchedule cexParams3 = Except.ok (mainSchedule cexParams3 ins10) := by
  norm_num [calculateAmortizationSchedule, cexParams3, calculateMortgageWithInsurance,
    getCMHCPremiumRate, ins10]

/-- C3 counterexample: `cexParams3` satisfies the claim's validity conditions
(non-empty sorted renewal list with positive start index 2, down payment 10),
the engine accepts it, yet the run ends after one payment with remaining
balance 50, far above the 0.01 bound. -/
theorem claim_C3_counterexample :
    cexParams3.renewalPeriods = [⟨2, 0, 5⟩] ∧
    (5 : ℝ) ≤ cexParams3.downPaymentPercent ∧
    calculateAmortizationSchedule cexParams3 = Except.ok (mainSchedule cexParams3 ins10) ∧
    (mainSchedule cexParams3 ins10).payments = [w1Entry] ∧
    ¬ w1Entry.balance ≤ 0.01 := by
  refine ⟨rfl, by norm_num [cexParams3], run_cexParams3, ?_, by norm_num [w1Entry]⟩
  norm_num [mainSchedule, cexParams3, sortRenewalPeriods, List.mergeSort_singleton,
    getPaymentCount, jsRound, getPaymentsPerYear, initialLoopState, runTerms, termEnd,
    getPeriodicRate_zero, calculatePayment, runPayments, payStep, getDaysForPayment,
    getAdditionalPaymentAmount, w1Entry]

/-! Claim C4 infrastructure. -/

theorem sortRenewalPeriods_pair (a b : RenewalPeriod) (h : a.startPayment ≤ b.startPayment) :
    sortRenewalPeriods [a, b] = [a, b] := by
  simp [sortRenewalPeriods, List.mergeSort, List.merge, h]

/-- Closed form of the inner loop at periodic rate zero with no extras due:
each step pays exactly `P` of principal, provided the balance stays above the
guard and covers every payment. -/
theorem runPayments_rate0 (params : MortgageParams) (term : RenewalPeriod) (tn : ℤ) (P : ℝ)
    (fuel : ℕ) (s : LoopState) (hP : 0 ≤ P)
    (hext : ∀ k : ℕ, k < fuel →
      getAdditionalPaymentAmount (s.paymentNumber + k) params.additionalPayments = 0)
    (h1 : (fuel : ℝ) * P ≤ s.balance)
    (h2 : 0.01 + ((fuel : ℝ) - 1) * P < s.balance) :
    (runPayments params term tn 0 P fuel s).2 =
      { balance := s.balance - (fuel : ℝ) * P
        totalInterestPaid := s.totalInterestPaid
        totalAdditionalPayments := s.totalAdditionalPayments
        paymentNumber := s.paymentNumber + (fuel : ℤ)
        prepaymentLimitViolations := s.prepaymentLimitViolations
        currentPeriodLumpSum := s.currentPeriodLumpSum
        currentPeriodIdentifier := s.currentPeriodIdentifier } ∧
    (runPayments params term tn 0 P fuel s).1.length = fuel := by
  induction fuel generalizing s with
  | zero =>
      refine ⟨?_, rfl⟩
      cases s
      simp [runPayments]
  | succ fuel ih =>
      have hfc : ((fuel + 1 : ℕ) : ℝ) = (fuel : ℝ) + 1 := by push_cast; ring
      have hg : (0.01 : ℝ) < s.balance := by
        have hfp : 0 ≤ (fuel : ℝ) * P := mul_nonneg (by positivity) hP
        rw [hfc] at h2
        nlinarith
      have hPle : P ≤ s.balance := by
        have : P * 1 ≤ P * ((fuel : ℝ) + 1) := by
          apply mul_le_mul_of_nonneg_left _ hP
          have : (0 : ℝ) ≤ (fuel : ℝ) := by positivity
          linarith
        rw [hfc] at h1
        nlinarith
      have hstep : (payStep params term tn 0 P s).2 =
          { balance := s.balance - P
            totalInterestPaid := s.totalInterestPaid
            totalAdditionalPayments := s.totalAdditionalPayments
            paymentNumber := s.paymentNumber + 1
            prepaymentLimitViolations := s.prepaymentLimitViolations
            currentPeriodLumpSum := s.currentPeriodLumpSum
            currentPeriodIdentifier := s.currentPeriodIdentifier } := by
        have he0 : getAdditionalPaymentAmount s.paymentNumber params.additionalPayments = 0 := by
          have := hext 0 (Nat.succ_pos fuel)
          simpa using this
        have hmin : min (P - s.balance * 0) s.balance = P := by
          rw [mul_zero, sub_zero]
          exact min_eq_left hPle
        have hmin2 : min (0 : ℝ) (s.balance - P) = 0 := by
          apply min_eq_left
          linarith
        cases hL : params.prepaymentLimits with
        | none => simp [payStep, hL, he0, hmin, hmin2, hPle]
        | some limits => simp [payStep, hL, he0, hmin, hmin2, hPle]
      rw [runPayments, if_pos hg]
      dsimp only
      rw [hstep]
      have hext2 : ∀ k : ℕ, k < fuel →
          getAdditionalPaymentAmount ((s.paymentNumber + 1) + k) params.additionalPayments = 0 := by
        intro k hk
        have := hext (k + 1) (by omega)
        have harg : s.paymentNumber + ((k + 1 : ℕ) : ℤ) = s.paymentNumber + 1 + (k : ℤ) := by
          push_cast
          ring
        rwa [harg] at this
      have h1b : (fuel : ℝ) * P ≤ s.balance - P := by
        rw [hfc] at h1
        nlinarith
      have h2b : 0.01 + ((fuel : ℝ) - 1) * P < s.balance - P := by
        rw [hfc] at h2
        nlinarith
      obtain ⟨ihs, ihl⟩ := ih
        { balance := s.balance - P
          totalInterestPaid := s.totalInterestPaid
          totalAdditionalPayments := s.totalAdditionalPayments
          paymentNumber := s.paymentNumber + 1
          prepaymentLimitViolations := s.prepaymentLimitViolations
          currentPeriodLumpSum := s.currentPeriodLumpSum
          currentPeriodIdentifier := s.currentPeriodIdentifier } hext2 h1b h2b
      rw [ihs]
      constructor
      · simp only [LoopState.mk.injEq, and_true, true_and]
        constructor
        · rw [hfc]
          ring
        · push_cast
          ring
      · rw [List.length_cons, ihl]

/-! Claim C4: per-term payment recomputation. -/

/-- C4: the Payment Sizer returns `balance / n` at periodic rate zero and the
annuity formula otherwise; and on a 25-year monthly mortgage with terms
starting at payments 1 and 61, if the first term runs its 60 slots with the
balance above the guard, the ledger from entry 61 on is generated with the
payment recomputed from the balance at that point over 240 remaining
payments. -/
theorem claim_C4 :
    (∀ (b ρ : ℝ) (n : ℤ), calculatePayment b ρ n =
        if ρ = 0 then b / (n : ℝ)
        else b * (ρ * (1 + ρ) ^ ((n : ℝ))) / ((1 + ρ) ^ ((n : ℝ)) - 1)) ∧
    ∀ (p : MortgageParams) (t1 t2 : RenewalPeriod) (s : AmortizationSchedule) (σ : LoopState),
      p.renewalPeriods = [t1, t2] → t1.startPayment = 1 → t2.startPayment = 61 →
      p.paymentFrequency = PaymentFrequency.monthly → p.amortizationYears = 25 →
      calculateAmortizationSchedule p = Except.ok s →
      σ = (runPayments p t1 1 (getPeriodicRate t1.annualRate p.paymentFrequency)
            (calculatePayment p.principal (getPeriodicRate t1.annualRate p.paymentFrequency) 300)
            60 (initialLoopState p.principal)).2 →
      σ.paymentNumber = 61 → 0.01 < σ.balance →
      s.payments =
        (runPayments p t1 1 (getPeriodicRate t1.annualRate p.paymentFrequency)
          (calculatePayment p.principal (getPeriodicRate t1.annualRate p.paymentFrequency) 300)
          60 (initialLoopState p.principal)).1 ++
        (runPayments p t2 2 (getPeriodicRate t2.annualRate p.paymentFrequency)
          (calculatePayment σ.balance (getPeriodicRate t2.annualRate p.paymentFrequency) 240)
          240 σ).1 := by
  refine ⟨fun b ρ n => rfl, ?_⟩
  intro p t1 t2 s σ hren ht1 ht2 hfreq hyears hok hσ hpn hbal
  obtain ⟨ins, hins, rfl⟩ := run_ok_elim p s hok
  rw [mainSchedule_payments, hren, sortRenewalPeriods_pair t1 t2 (by rw [ht1, ht2]; norm_num)]
  have hN : getPaymentCount p.amortizationYears p.paymentFrequency = 300 := by
    rw [hyears, hfreq]
    norm_num [getPaymentCount, jsRound, getPaymentsPerYear]
  rw [hN, runTerms.eq_def]
  dsimp only
  have hfuel : ((termEnd 300 [t2] - t1.startPayment + 1).toNat) = 60 := by
    simp [termEnd, ht1, ht2]
  have hrem : (300 : ℤ) - (initialLoopState p.principal).paymentNumber + 1 = 300 := by
    simp [initialLoopState]
  rw [hfuel, hrem, hfreq]
  rw [hfreq] at hσ
  rw [show (initialLoopState p.principal).balance = p.principal from rfl]
  rw [← hσ]
  rw [if_neg (asymm hbal)]
  dsimp only
  rw [show (1 : ℤ) + 1 = 2 from by norm_num]
  rw [runTerms.eq_def]
  dsimp only
  have hfuel2 : ((termEnd 300 ([] : List RenewalPeriod) - t2.startPayment + 1).toNat) = 240 := by
    simp [termEnd, ht2]
  have hrem2 : (300 : ℤ) - σ.paymentNumber + 1 = 240 := by
    rw [hpn]
    norm_num
  rw [hfuel2, hrem2]
  split
  · rw [hfreq]
  · rw [runTerms.eq_def]
    dsimp only
    rw [List.append_nil, hfreq]

theorem w4Sigma_eval :
    w4Sigma =
      { balance := 240
        totalInterestPaid := 0
        totalAdditionalPayments := 0
        paymentNumber := 61
        prepaymentLimitViolations := 0
        currentPeriodLumpSum := 0
        currentPeriodIdentifier := PeriodId.initial } := by
  have hρ : getPeriodicRate w4t1.annualRate w4Params.paymentFrequency = 0 := by
    rw [show w4t1.annualRate = 0 from rfl,
      show w4Params.paymentFrequency = PaymentFrequency.monthly from rfl, getPeriodicRate_zero]
  have hP : calculatePayment w4Params.principal (0 : ℝ) 300 = 1 := by
    norm_num [calculatePayment, w4Params]
  have h0 := runPayments_rate0 w4Params w4t1 1 1 60 (initialLoopState w4Params.principal)
    (by norm_num) (fun k hk => rfl)
    (by norm_num [initialLoopState, w4Params])
    (by norm_num [initialLoopState, w4Params])
  unfold w4Sigma
  rw [hρ, hP, h0.1]
  norm_num [initialLoopState, w4Params]

/-- C4 witness: the two-term zero-rate run on principal 300, where the first
term leaves balance 240 at payment 61 and the tail is generated with the
payment recomputed over 240 remaining payments. -/
theorem claim_C4_witness :
    (mainSchedule w4Params ins20).payments =
      (runPayments w4Params w4t1 1 (getPeriodicRate w4t1.annualRate w4Params.paymentFrequency)
        (calculatePayment w4Params.principal
          (getPeriodicRate w4t1.annualRate w4Params.paymentFrequency) 300)
        60 (initialLoopState w4Params.principal)).1 ++
      (runPayments w4Params w4t2 2 (getPeriodicRate w4t2.annualRate w4Params.paymentFrequency)
        (calculatePayment w4Sigma.balance
          (getPeriodicRate w4t2.annualRate w4Params.paymentFrequency) 240)
        240 w4Sigma).1 := by
  have hok : calculateAmortizationSchedule w4Params = Except.ok (mainSchedule w4Params ins20) := by
    norm_num [calculateAmortizationSchedule, w4Params, calculateMortgageWithInsurance,
      getCMHCPremiumRate, ins20]
  exact claim_C4.2 w4Params w4t1 w4t2 (mainSchedule w4Params ins20) w4Sigma rfl rfl rfl rfl rfl
    hok rfl (by rw [w4Sigma_eval]) (by rw [w4Sigma_eval]; norm_num)

/-! Claim C5: prepayment limit tracking. -/

/-- C5: limit tracking is cumulative per reset period: on a new period key the
running total resets before the amount is added, otherwise it accumulates; a
payment is flagged exactly when the running total after adding it strictly
exceeds originalPrincipal * limitPercent/100; the anniversary period key is
the floor of the whole-month (year, month) difference divided by 12, ignoring
the day; and in the concrete scenario with two 50000 recurring extras in one
anniversary period against 15 percent of 562500, the second payment is
flagged, the first is not, and the violation count is 1. -/
theorem claim_C5 :
    (∀ (principal : ℝ) (L : PrepaymentLimits) (periodId currentKey : PeriodId)
        (currentTotal extra : ℝ),
      (periodId ≠ currentKey →
        (updateLimitTracking principal L periodId currentKey currentTotal extra).2.2 = extra ∧
        (updateLimitTracking principal L periodId currentKey currentTotal extra).2.1 = periodId) ∧
      (periodId = currentKey →
        (updateLimitTracking principal L periodId currentKey currentTotal extra).2.2 =
          currentTotal + extra) ∧
      ((updateLimitTracking principal L periodId currentKey currentTotal extra).1 = true ↔
        principal * (L.lumpSumLimitPercent / 100) <
          (updateLimitTracking principal L periodId currentKey currentTotal extra).2.2)) ∧
    (∀ d sd : ℤ, getPeriodIdentifier d sd ResetPeriod.anniversary =
      PeriodId.anniversaryYear
        (Int.fdiv ((yearOf d - yearOf sd) * 12 + (monthOf d - monthOf sd)) 12)) ∧
    (calculateAmortizationSchedule w5Params).toOption.map
        (fun s => (s.payments.map (fun e => e.exceedsLimit), s.summary.prepaymentLimitViolations))
      = some ([false, true, false, false, false], some 1) := by
  refine ⟨?_, fun d sd => rfl, ?_⟩
  · intro principal L periodId currentKey currentTotal extra
    refine ⟨?_, ?_, ?_⟩
    · intro hne
      unfold updateLimitTracking
      rw [if_pos hne]
      exact ⟨zero_add extra, rfl⟩
    · intro heq
      unfold updateLimitTracking
      rw [if_neg (by simp [heq])]
    · unfold updateLimitTracking
      dsimp only
      split_ifs
      all_goals simp_all [not_lt]
  · have hp1 : getPeriodIdentifier 18262 18262 ResetPeriod.anniversary =
        PeriodId.anniversaryYear 0 := by
      decide
    have hp2 : getPeriodIdentifier 18292 18262 ResetPeriod.anniversary =
        PeriodId.anniversaryYear 0 := by
      decide
    have hne : PeriodId.anniversaryYear 0 ≠ PeriodId.initial := by
      simp
    have hA1 : getAdditionalPaymentAmount 1 [w5Rule] = 50000 := by
      simp [getAdditionalPaymentAmount, additionalPaymentContribution, w5Rule, Int.tmod]
    have hA2 : getAdditionalPaymentAmount 2 [w5Rule] = 50000 := by
      simp [getAdditionalPaymentAmount, additionalPaymentContribution, w5Rule, Int.tmod]
    have hA3 : getAdditionalPaymentAmount 3 [w5Rule] = 0 := by
      simp [getAdditionalPaymentAmount, additionalPaymentContribution, w5Rule, Int.tmod]
    have hA4 : getAdditionalPaymentAmount 4 [w5Rule] = 0 := by
      simp [getAdditionalPaymentAmount, additionalPaymentContribution, w5Rule, Int.tmod]
    have hA5 : getAdditionalPaymentAmount 5 [w5Rule] = 0 := by
      simp [getAdditionalPaymentAmount, additionalPaymentContribution, w5Rule, Int.tmod]
    have hd1 : getDaysForPayment 1 PaymentFrequency.monthly = 0 := by
      norm_num [getDaysForPayment, jsRound]
    have hd2 : getDaysForPayment 2 PaymentFrequency.monthly = 30 := by
      norm_num [getDaysForPayment, jsRound]
    have hd3 : getDaysForPayment 3 PaymentFrequency.monthly = 61 := by
      norm_num [getDaysForPayment, jsRound]
    have hd4 : getDaysForPayment 4 PaymentFrequency.monthly = 91 := by
      norm_num [getDaysForPayment, jsRound]
    have hd5 : getDaysForPayment 5 PaymentFrequency.monthly = 122 := by
      norm_num [getDaysForPayment, jsRound]
    norm_num [calculateAmortizationSchedule, w5Params, calculateMortgageWithInsurance,
      getCMHCPremiumRate, mainSchedule, sortRenewalPeriods, List.mergeSort_singleton,
      getPaymentCount, jsRound, getPaymentsPerYear, initialLoopState, runTerms, termEnd,
      getPeriodicRate_zero, calculatePayment, runPayments, payStep,
      hA1, hA2, hA3, hA4, hA5, hd1, hd2, hd3, hd4, hd5, hp1, hp2, hne,
      updateLimitTracking, Except.toOption]

/-- C5 witness: the tracker applied to a first 50000 extra entering a fresh
anniversary period against a ceiling of 84375. -/
theorem claim_C5_witness :
    (updateLimitTracking 562500 ⟨15, 15, ResetPeriod.anniversary⟩ (PeriodId.anniversaryYear 0)
        PeriodId.initial 0 50000).2.2 = 50000 ∧
    (updateLimitTracking 562500 ⟨15, 15, ResetPeriod.anniversary⟩ (PeriodId.anniversaryYear 0)
        PeriodId.initial 0 50000).2.1 = PeriodId.anniversaryYear 0 ∧
    getPeriodIdentifier 18262 18262 ResetPeriod.anniversary =
      PeriodId.anniversaryYear
        (Int.fdiv ((yearOf 18262 - yearOf 18262) * 12 + (monthOf 18262 - monthOf 18262)) 12) := by
  have h := (claim_C5.1 562500 ⟨15, 15, ResetPeriod.anniversary⟩ (PeriodId.anniversaryYear 0)
    PeriodId.initial 0 50000).1 (by simp)
  exact ⟨h.1, h.2, claim_C5.2.1 18262 18262⟩

/-! Claim C6 infrastructure. -/

theorem runPayments_stuck (params : MortgageParams) (term : RenewalPeriod) (tn : ℤ)
    (ρ P : ℝ) (fuel : ℕ) (s : LoopState) (hs : ¬ (0.01 : ℝ) < s.balance) :
    runPayments params term tn ρ P fuel s = ([], s) := by
  cases fuel with
  | zero => rfl
  | succ n => rw [runPayments, if_neg hs]

theorem runPayments_add (params : MortgageParams) (term : RenewalPeriod) (tn : ℤ)
    (ρ P : ℝ) (a b : ℕ) (s : LoopState) :
    runPayments params term tn ρ P (a + b) s =
      ((runPayments params term tn ρ P a s).1 ++
         (runPayments params term tn ρ P b (runPayments params term tn ρ P a s).2).1,
       (runPayments params term tn ρ P b (runPayments params term tn ρ P a s).2).2) := by
  induction a generalizing s with
  | zero => simp [runPayments]
  | succ n ih =>
      rw [show n + 1 + b = (n + b) + 1 from by omega]
      by_cases hg : (0.01 : ℝ) < s.balance
      · rw [runPayments, if_pos hg]
        dsimp only
        rw [ih]
        conv_rhs => rw [runPayments, if_pos hg]
        dsimp only
        rw [List.cons_append]
      · rw [runPayments, if_neg hg]
        rw [runPayments_stuck params term tn ρ P (n + 1) s hg]
        dsimp only
        rw [runPayments_stuck params term tn ρ P b s hg]
        simp

theorem runShadowPayments_rate0 (P : ℝ) (te N : ℤ) (fuel : ℕ) (bal ti : ℝ) (pn : ℤ)
    (hP : 0 ≤ P)
    (hpn : ∀ k : ℕ, k < fuel → pn + (k : ℤ) ≤ te ∧ pn + (k : ℤ) ≤ N)
    (h1 : (fuel : ℝ) * P ≤ bal)
    (h2 : 0.01 + ((fuel : ℝ) - 1) * P < bal) :
    runShadowPayments 0 P te N fuel (bal, ti, pn) =
      (bal - (fuel : ℝ) * P, ti, pn + (fuel : ℤ)) := by
  induction fuel generalizing bal ti pn with
  | zero => simp [runShadowPayments]
  | succ fuel ih =>
      have hfc : ((fuel + 1 : ℕ) : ℝ) = (fuel : ℝ) + 1 := by push_cast; ring
      have hfp : (0 : ℝ) ≤ (fuel : ℝ) * P := mul_nonneg (by positivity) hP
      have hg : (0.01 : ℝ) < bal := by
        rw [hfc] at h2
        nlinarith
      have hPle : P ≤ bal := by
        rw [hfc] at h1
        nlinarith
      have hg0 := hpn 0 (Nat.succ_pos fuel)
      rw [runShadowPayments,
        if_pos ⟨by simpa using hg0.1, hg, by simpa using hg0.2⟩]
      dsimp only
      have hmin : min (P - bal * 0) bal = P := by
        rw [mul_zero, sub_zero]
        exact min_eq_left hPle
      rw [hmin, mul_zero, add_zero]
      have hpn2 : ∀ k : ℕ, k < fuel → pn + 1 + (k : ℤ) ≤ te ∧ pn + 1 + (k : ℤ) ≤ N := by
        intro k hk
        have := hpn (k + 1) (by omega)
        constructor
        · have h := this.1
          push_cast at h ⊢
          linarith
        · have h := this.2
          push_cast at h ⊢
          linarith
      have h1b : (fuel : ℝ) * P ≤ bal - P := by
        rw [hfc] at h1
        nlinarith
      have h2b : 0.01 + ((fuel : ℝ) - 1) * P < bal - P := by
        rw [hfc] at h2
        nlinarith
      rw [ih (bal - P) ti (pn + 1) hpn2 h1b h2b]
      rw [Prod.mk.injEq, Prod.mk.injEq]
      refine ⟨by rw [hfc]; ring, rfl, by push_cast; ring⟩

theorem w6Rule_contribution_zero (pn : ℤ) (h : pn < 12) :
    additionalPaymentContribution pn w6Rule = 0 := by
  unfold additionalPaymentContribution
  rw [if_neg (by simp [w6Rule])]
  rw [if_pos (show pn < w6Rule.startPayment from h)]

theorem calculatePayment_p01_2 (b : ℝ) :
    calculatePayment b (1 / 100) 2 = b * 10201 / 20100 := by
  unfold calculatePayment
  rw [if_neg (by norm_num)]
  rw [show (((2 : ℤ) : ℝ)) = ((2 : ℕ) : ℝ) from by norm_num, Real.rpow_natCast]
  norm_num
  ring

theorem w6_main_eval :
    runTerms w6Params 14 [w6t1, w6t2] 1 (initialLoopState w6Params.principal) =
      ((runPayments w6Params w6t1 1 0 10000 12 (initialLoopState w6Params.principal)).1 ++
        (runPayments w6Params w6t2 2 (1 / 100) (10000 * 10201 / 20100) 2
          { balance := 10000
            totalInterestPaid := 0
            totalAdditionalPayments := 10000
            paymentNumber := 13
            prepaymentLimitViolations := 0
            currentPeriodLumpSum := 0
            currentPeriodIdentifier := PeriodId.initial }).1,
       { balance := 0
         totalInterestPaid := 30200 / 201
         totalAdditionalPayments := 10000
         paymentNumber := 15
         prepaymentLimitViolations := 0
         currentPeriodLumpSum := 0
         currentPeriodIdentifier := PeriodId.initial }) ∧
    (runPayments w6Params w6t1 1 0 10000 12 (initialLoopState w6Params.principal)).1.length = 12 ∧
    (runPayments w6Params w6t2 2 (1 / 100) (10000 * 10201 / 20100) 2
      { balance := 10000
        totalInterestPaid := 0
        totalAdditionalPayments := 10000
        paymentNumber := 13
        prepaymentLimitViolations := 0
        currentPeriodLumpSum := 0
        currentPeriodIdentifier := PeriodId.initial }).1.length = 2 := by
  have h11 := runPayments_rate0 w6Params w6t1 1 10000 11 (initialLoopState w6Params.principal)
    (by norm_num)
    (fun k hk => by
      have hz : additionalPaymentContribution
          ((initialLoopState w6Params.principal).paymentNumber + (k : ℤ)) w6Rule = 0 :=
        w6Rule_contribution_zero _ (by
          rw [show (initialLoopState w6Params.principal).paymentNumber = 1 from rfl]
          omega)
      simp [getAdditionalPaymentAmount, show w6Params.additionalPayments = [w6Rule] from rfl, hz])
    (by norm_num [initialLoopState, w6Params])
    (by norm_num [initialLoopState, w6Params])
  have h11s : (runPayments w6Params w6t1 1 0 10000 11 (initialLoopState w6Params.principal)).2 =
      { balance := 30000
        totalInterestPaid := 0
        totalAdditionalPayments := 0
        paymentNumber := 12
        prepaymentLimitViolations := 0
        currentPeriodLumpSum := 0
        currentPeriodIdentifier := PeriodId.initial } := by
    rw [h11.1]
    simp only [LoopState.mk.injEq]
    norm_num [initialLoopState, w6Params]
  have hA12 : getAdditionalPaymentAmount 12 [w6Rule] = 10000 := by
    simp [getAdditionalPaymentAmount, additionalPaymentContribution, w6Rule]
  have h12 : (runPayments w6Params w6t1 1 0 10000 1
        { balance := 30000
          totalInterestPaid := 0
          totalAdditionalPayments := 0
          paymentNumber := 12
          prepaymentLimitViolations := 0
          currentPeriodLumpSum := 0
          currentPeriodIdentifier := PeriodId.initial }) =
      ((runPayments w6Params w6t1 1 0 10000 1
        { balance := 30000
          totalInterestPaid := 0
          totalAdditionalPayments := 0
          paymentNumber := 12
          prepaymentLimitViolations := 0
          currentPeriodLumpSum := 0
          currentPeriodIdentifier := PeriodId.initial }).1,
       { balance := 10000
         totalInterestPaid := 0
         totalAdditionalPayments := 10000
         paymentNumber := 13
         prepaymentLimitViolations := 0
         currentPeriodLumpSum := 0
         currentPeriodIdentifier := PeriodId.initial }) ∧
      (runPayments w6Params w6t1 1 0 10000 1
        { balance := 30000
          totalInterestPaid := 0
          totalAdditionalPayments := 0
          paymentNumber := 12
          prepaymentLimitViolations := 0
          currentPeriodLumpSum := 0
          currentPeriodIdentifier := PeriodId.initial }).1.length = 1 := by
    constructor
    · rw [Prod.mk.injEq]
      refine ⟨rfl, ?_⟩
      norm_num [runPayments, payStep, hA12, w6Params]
    · norm_num [runPayments, payStep, hA12, w6Params]
  have hin : (runPayments w6Params w6t1 1 0 10000 12 (initialLoopState w6Params.principal)).2 =
      { balance := 10000
        totalInterestPaid := 0
        totalAdditionalPayments := 10000
        paymentNumber := 13
        prepaymentLimitViolations := 0
        currentPeriodLumpSum := 0
        currentPeriodIdentifier := PeriodId.initial } ∧
      (runPayments w6Params w6t1 1 0 10000 12 (initialLoopState w6Params.principal)).1.length = 12 := by
    rw [show (12 : ℕ) = 11 + 1 from by norm_num, runPayments_add]
    constructor
    · dsimp only
      rw [h11s]
      conv_lhs => rw [h12.1]
    · dsimp only
      rw [List.length_append, h11.2, h11s, h12.2]
  have hA13 : getAdditionalPaymentAmount 13 [w6Rule] = 0 := by
    simp [getAdditionalPaymentAmount, additionalPaymentContribution, w6Rule]
  have hA14 : getAdditionalPaymentAmount 14 [w6Rule] = 0 := by
    simp [getAdditionalPaymentAmount, additionalPaymentContribution, w6Rule]
  have ht2 : (runPayments w6Params w6t2 2 (1 / 100) (10000 * 10201 / 20100) 2
        { balance := 10000
          totalInterestPaid := 0
          totalAdditionalPayments := 10000
          paymentNumber := 13
          prepaymentLimitViolations := 0
          currentPeriodLumpSum := 0
          currentPeriodIdentifier := PeriodId.initial }).2 =
      { balance := 0
        totalInterestPaid := 30200 / 201
        totalAdditionalPayments := 10000
        paymentNumber := 15
        prepaymentLimitViolations := 0
        currentPeriodLumpSum := 0
        currentPeriodIdentifier := PeriodId.initial } ∧
      (runPayments w6Params w6t2 2 (1 / 100) (10000 * 10201 / 20100) 2
        { balance := 10000
          totalInterestPaid := 0
          totalAdditionalPayments := 10000
          paymentNumber := 13
          prepaymentLimitViolations := 0
          currentPeriodLumpSum := 0
          currentPeriodIdentifier := PeriodId.initial }).1.length = 2 := by
    constructor
    · norm_num [runPayments, payStep, hA13, hA14, w6Params, LoopState.mk.injEq]
    · norm_num [runPayments, payStep, hA13, hA14, w6Params]
  refine ⟨?_, hin.2, ht2.2⟩
  rw [runTerms.eq_def]
  dsimp only
  rw [show (termEnd 14 [w6t2] - w6t1.startPayment + 1).toNat = 12 from by
    norm_num [termEnd, w6t1, w6t2] <;> decide]
  rw [show (14 : ℤ) - (initialLoopState w6Params.principal).paymentNumber + 1 = 14 from by
    norm_num [initialLoopState]]
  rw [show getPeriodicRate w6t1.annualRate w6Params.paymentFrequency = 0 from by
    rw [show w6t1.annualRate = (0 : ℝ) from rfl]
    exact getPeriodicRate_zero w6Params.paymentFrequency]
  rw [show calculatePayment (initialLoopState w6Params.principal).balance 0 14 = 10000 from by
    norm_num [initialLoopState, w6Params, calculatePayment]]
  rw [hin.1]
  rw [if_neg (by norm_num)]
  rw [show (1 : ℤ) + 1 = 2 from by norm_num]
  rw [runTerms.eq_def]
  dsimp only
  rw [show (termEnd 14 ([] : List RenewalPeriod) - w6t2.startPayment + 1).toNat = 2 from by
    norm_num [termEnd, w6t2] <;> decide]
  rw [show (14 : ℤ) -
      ({ balance := 10000
         totalInterestPaid := 0
         totalAdditionalPayments := 10000
         paymentNumber := 13
         prepaymentLimitViolations := 0
         currentPeriodLumpSum := 0
         currentPeriodIdentifier := PeriodId.initial } : LoopState).paymentNumber + 1 = 2 from by
    norm_num]
  rw [show getPeriodicRate w6t2.annualRate w6Params.paymentFrequency = 1 / 100 from by
    rw [show w6t2.annualRate = w6Rate from rfl,
      show w6Params.paymentFrequency = PaymentFrequency.monthly from rfl]
    exact getPeriodicRate_w6]
  rw [show calculatePayment
      ({ balance := 10000
         totalInterestPaid := 0
         totalAdditionalPayments := 10000
         paymentNumber := 13
         prepaymentLimitViolations := 0
         currentPeriodLumpSum := 0
         currentPeriodIdentifier := PeriodId.initial } : LoopState).balance (1 / 100) 2 =
      10000 * 10201 / 20100 from calculatePayment_p01_2 _]
  rw [ht2.1]
  rw [if_pos (by norm_num)]
  rw [Prod.mk.injEq]
  exact ⟨rfl, ht2.1⟩

theorem w6_shadow_eval :
    interestWithoutExtra w6Params [w6t1, w6t2] 14 = 60400 / 201 := by
  unfold interestWithoutExtra
  rw [runShadowTerms.eq_def]
  dsimp only
  rw [show w6Params.principal = (140000 : ℝ) from rfl]
  rw [if_pos (by norm_num : (0.01 : ℝ) < 140000)]
  rw [show (14 : ℤ) - 1 + 1 = 14 from by norm_num]
  rw [show getPeriodicRate w6t1.annualRate w6Params.paymentFrequency = 0 from by
    rw [show w6t1.annualRate = (0 : ℝ) from rfl]
    exact getPeriodicRate_zero w6Params.paymentFrequency]
  rw [show calculatePayment (140000 : ℝ) 0 14 = 10000 from by norm_num [calculatePayment]]
  rw [show (min (termEnd 14 [w6t2]) 14 + 1 - 1).toNat = 12 from by
    norm_num [termEnd, w6t2] <;> decide]
  rw [runShadowPayments_rate0 10000 (termEnd 14 [w6t2]) 14 12 140000 0 1 (by norm_num)
    (fun k hk => ⟨by simp [termEnd, w6t2]; omega, by omega⟩)
    (by norm_num) (by norm_num)]
  rw [show (140000 : ℝ) - ((12 : ℕ) : ℝ) * 10000 = 20000 from by norm_num]
  rw [show (1 : ℤ) + ((12 : ℕ) : ℤ) = 13 from by norm_num]
  rw [runShadowTerms.eq_def]
  dsimp only
  rw [if_pos (by norm_num : (0.01 : ℝ) < 20000)]
  rw [show (14 : ℤ) - 13 + 1 = 2 from by norm_num]
  rw [show getPeriodicRate w6t2.annualRate w6Params.paymentFrequency = 1 / 100 from by
    rw [show w6t2.annualRate = w6Rate from rfl,
      show w6Params.paymentFrequency = PaymentFrequency.monthly from rfl]
    exact getPeriodicRate_w6]
  rw [calculatePayment_p01_2]
  rw [show (min (termEnd 14 ([] : List RenewalPeriod)) 14 + 1 - 13).toNat = 2 from by
    norm_num [termEnd] <;> decide]
  rw [show (20000 : ℝ) * 10201 / 20100 = 2040200 / 201 from by norm_num]
  norm_num [runShadowPayments, runShadowTerms, termEnd]

theorem mainSchedule_interestSaved (p : MortgageParams) (ins : InsuranceDetails) :
    (mainSchedule p ins).summary.interestSaved =
      if 0 < (runTerms p (getPaymentCount p.amortizationYears p.paymentFrequency)
          (sortRenewalPeriods p.renewalPeriods) 1
          (initialLoopState p.principal)).2.totalAdditionalPayments then
        max 0 (interestWithoutExtra p (sortRenewalPeriods p.renewalPeriods)
            (getPaymentCount p.amortizationYears p.paymentFrequency) -
          (runTerms p (getPaymentCount p.amortizationYears p.paymentFrequency)
            (sortRenewalPeriods p.renewalPeriods) 1
            (initialLoopState p.principal)).2.totalInterestPaid)
      else 0 := rfl

theorem mainSchedule_tap (p : MortgageParams) (ins : InsuranceDetails) :
    (mainSchedule p ins).summary.totalAdditionalPayments =
      (runTerms p (getPaymentCount p.amortizationYears p.paymentFrequency)
        (sortRenewalPeriods p.renewalPeriods) 1
        (initialLoopState p.principal)).2.totalAdditionalPayments := rfl

theorem mainSchedule_ti (p : MortgageParams) (ins : InsuranceDetails) :
    (mainSchedule p ins).summary.totalInterestPaid =
      (runTerms p (getPaymentCount p.amortizationYears p.paymentFrequency)
        (sortRenewalPeriods p.renewalPeriods) 1
        (initialLoopState p.principal)).2.totalInterestPaid := rfl

/-! Claim C6: savings figures. -/

/-- C6: whenever the total of extra payments in the main run is positive, the
engine reports interestSaved as max(0, shadow-run interest minus the actual
interest), timeSaved as the nominal months minus the actual payoff months,
and actualPayoffMonths as round(ledgerLength / paymentsPerYear * 12); in the
concrete scenario with a one-time extra payment of 10000 at payment 12 the
interest saved is 30200/201 > 0 and the total additional payments equal
10000. -/
theorem claim_C6 :
    (∀ (p : MortgageParams) (s : AmortizationSchedule),
      calculateAmortizationSchedule p = Except.ok s →
      0 < s.summary.totalAdditionalPayments →
      s.summary.interestSaved =
        max 0 (interestWithoutExtra p (sortRenewalPeriods p.renewalPeriods)
            (getPaymentCount p.amortizationYears p.paymentFrequency) -
          s.summary.totalInterestPaid) ∧
      s.summary.timeSaved = p.amortizationYears * 12 - (s.summary.actualPayoffMonths : ℝ) ∧
      s.summary.actualPayoffMonths =
        jsRound ((s.payments.length : ℝ) / (getPaymentsPerYear p.paymentFrequency : ℝ) * 12)) ∧
    (calculateAmortizationSchedule w6Params).toOption.map
        (fun s => (s.summary.interestSaved, s.summary.totalAdditionalPayments)) =
      some (30200 / 201, 10000) ∧
    (0 : ℝ) < 30200 / 201 := by
  have hsort : sortRenewalPeriods w6Params.renewalPeriods = [w6t1, w6t2] := by
    rw [show w6Params.renewalPeriods = [w6t1, w6t2] from rfl]
    exact sortRenewalPeriods_pair w6t1 w6t2 (by norm_num [w6t1, w6t2])
  have hN : getPaymentCount w6Params.amortizationYears w6Params.paymentFrequency = 14 := by
    norm_num [getPaymentCount, w6Params, jsRound, getPaymentsPerYear]
  refine ⟨?_, ?_, by norm_num⟩
  · intro p s hok hpos
    obtain ⟨ins, hins, rfl⟩ := run_ok_elim p s hok
    refine ⟨?_, rfl, rfl⟩
    rw [mainSchedule_tap] at hpos
    rw [mainSchedule_interestSaved, if_pos hpos, mainSchedule_ti]
  · have hrun : calculateAmortizationSchedule w6Params =
        Except.ok (mainSchedule w6Params ins20) := by
      norm_num [calculateAmortizationSchedule, w6Params, calculateMortgageWithInsurance,
        getCMHCPremiumRate, ins20]
    have hIS : (mainSchedule w6Params ins20).summary.interestSaved = 30200 / 201 := by
      rw [mainSchedule_interestSaved, hsort, hN, w6_main_eval.1]
      rw [if_pos (by norm_num), w6_shadow_eval]
      norm_num
    have hTAP : (mainSchedule w6Params ins20).summary.totalAdditionalPayments = 10000 := by
      rw [mainSchedule_tap, hsort, hN, w6_main_eval.1]
    rw [hrun]
    simp [Except.toOption, hIS, hTAP]

/-- C6 witness: the savings equations instantiated on the scenario run. -/
theorem claim_C6_witness :
    (mainSchedule w6Params ins20).summary.interestSaved =
      max 0 (interestWithoutExtra w6Params (sortRenewalPeriods w6Params.renewalPeriods)
          (getPaymentCount w6Params.amortizationYears w6Params.paymentFrequency) -
        (mainSchedule w6Params ins20).summary.totalInterestPaid) ∧
    (mainSchedule w6Params ins20).summary.timeSaved =
      w6Params.amortizationYears * 12 -
        ((mainSchedule w6Params ins20).summary.actualPayoffMonths : ℝ) := by
  have hrun : calculateAmortizationSchedule w6Params =
      Except.ok (mainSchedule w6Params ins20) := by
    norm_num [calculateAmortizationSchedule, w6Params, calculateMortgageWithInsurance,
      getCMHCPremiumRate, ins20]
  have hpos : 0 < (mainSchedule w6Params ins20).summary.totalAdditionalPayments := by
    have hsort : sortRenewalPeriods w6Params.renewalPeriods = [w6t1, w6t2] := by
      rw [show w6Params.renewalPeriods = [w6t1, w6t2] from rfl]
      exact sortRenewalPeriods_pair w6t1 w6t2 (by norm_num [w6t1, w6t2])
    have hN : getPaymentCount w6Params.amortizationYears w6Params.paymentFrequency = 14 := by
      norm_num [getPaymentCount, w6Params, jsRound, getPaymentsPerYear]
    rw [mainSchedule_tap, hsort, hN, w6_main_eval.1]
    norm_num
  have h := claim_C6.1 w6Params (mainSchedule w6Params ins20) hrun hpos
  exact ⟨h.1, h.2.1⟩

/-! Claim C3 infrastructure: loop accounting lemmas. -/

theorem runPayments_pn (params : MortgageParams) (term : RenewalPeriod) (tn : ℤ)
    (ρ P : ℝ) (fuel : ℕ) (s : LoopState) :
    (runPayments params term tn ρ P fuel s).2.paymentNumber =
      s.paymentNumber + ((runPayments params term tn ρ P fuel s).1.length : ℤ) := by
  induction fuel generalizing s with
  | zero => simp [runPayments]
  | succ fuel ih =>
      rw [runPayments]
      by_cases hg : (0.01 : ℝ) < s.balance
      · rw [if_pos hg]
        dsimp only
        rw [ih]
        rw [show ((payStep params term tn ρ P s).2).paymentNumber = s.paymentNumber + 1 from rfl]
        rw [List.length_cons]
        push_cast
        ring
      · rw [if_neg hg]
        simp

theorem runPayments_len_le (params : MortgageParams) (term : RenewalPeriod) (tn : ℤ)
    (ρ P : ℝ) (fuel : ℕ) (s : LoopState) :
    (runPayments params term tn ρ P fuel s).1.length ≤ fuel := by
  induction fuel generalizing s with
  | zero => simp [runPayments]
  | succ fuel ih =>
      rw [runPayments]
      by_cases hg : (0.01 : ℝ) < s.balance
      · rw [if_pos hg]
        dsimp only
        rw [List.length_cons]
        exact Nat.succ_le_succ (ih _)
      · rw [if_neg hg]
        simp

theorem runPayments_stop (params : MortgageParams) (term : RenewalPeriod) (tn : ℤ)
    (ρ P : ℝ) (fuel : ℕ) (s : LoopState)
    (h : (runPayments params term tn ρ P fuel s).1.length < fuel) :
    (runPayments params term tn ρ P fuel s).2.balance ≤ 0.01 := by
  induction fuel generalizing s with
  | zero => exact absurd h (by simp)
  | succ fuel ih =>
      rw [runPayments] at h ⊢
      by_cases hg : (0.01 : ℝ) < s.balance
      · rw [if_pos hg] at h ⊢
        dsimp only at h ⊢
        rw [List.length_cons] at h
        exact ih _ (Nat.lt_of_succ_lt_succ h)
      · rw [if_neg hg] at h ⊢
        exact le_of_not_lt hg

theorem getAdditionalPaymentAmount_nonneg (n : ℤ) (rules : List AdditionalPayment)
    (h : ∀ a ∈ rules, 0 ≤ a.amount) : 0 ≤ getAdditionalPaymentAmount n rules := by
  induction rules with
  | nil => exact le_refl 0
  | cons r rs ih =>
      have hr : 0 ≤ r.amount := h r (List.mem_cons_self r rs)
      have hrs := ih (fun a ha => h a (List.mem_cons_of_mem r ha))
      unfold getAdditionalPaymentAmount at *
      rw [List.map_cons, List.sum_cons]
      have hc : 0 ≤ additionalPaymentContribution n r := by
        unfold additionalPaymentContribution
        rcases htype : r.type with _ | _ <;> simp only [htype] <;> split_ifs <;>
          first | exact le_refl 0 | exact hr
      linarith

theorem runPayments_mono (params : MortgageParams) (term : RenewalPeriod) (tn : ℤ)
    (ρ P : ℝ) (hρ : 0 ≤ ρ)
    (hext0 : ∀ n, 0 ≤ getAdditionalPaymentAmount n params.additionalPayments)
    (fuel : ℕ) (s : LoopState) (hs : 0 ≤ s.balance) (hP : ρ * s.balance ≤ P) :
    balancesNonincreasingFrom s.balance (runPayments params term tn ρ P fuel s).1 ∧
    (runPayments params term tn ρ P fuel s).2.balance ≤ s.balance := by
  induction fuel generalizing s with
  | zero => exact ⟨trivial, le_refl _⟩
  | succ fuel ih =>
      rw [runPayments]
      by_cases hg : (0.01 : ℝ) < s.balance
      · rw [if_pos hg]
        dsimp only
        have hstep : (payStep params term tn ρ P s).2.balance ≤ s.balance := by
          rw [payStep_state_balance]
          have hmin1 : 0 ≤ min (P - s.balance * ρ) s.balance :=
            le_min (by nlinarith) hs
          have hmin2 : 0 ≤ min
              (getAdditionalPaymentAmount s.paymentNumber params.additionalPayments)
              (s.balance - min (P - s.balance * ρ) s.balance) := by
            apply le_min (hext0 s.paymentNumber)
            have := min_le_right (P - s.balance * ρ) s.balance
            linarith
          linarith
        have hnn := payStep_state_nonneg params term tn ρ P s hs
        have hP2 : ρ * (payStep params term tn ρ P s).2.balance ≤ P := by
          have := mul_le_mul_of_nonneg_left hstep hρ
          linarith
        obtain ⟨m1, m2⟩ := ih _ hnn hP2
        have hmax : (payStep params term tn ρ P s).1.balance =
            (payStep params term tn ρ P s).2.balance := by
          rw [payStep_entry_balance, max_eq_right hnn]
        refine ⟨⟨?_, ?_⟩, ?_⟩
        · rw [hmax]
          exact hstep
        · rw [hmax]
          exact m1
        · exact le_trans m2 hstep
      · rw [if_neg hg]
        exact ⟨trivial, le_refl _⟩

theorem balancesNonincreasingFrom_append {a : ℝ} {l1 l2 : List PaymentDetail}
    (h1 : balancesNonincreasingFrom a l1) (h2 : balancesNonincreasingFrom (lastBal a l1) l2) :
    balancesNonincreasingFrom a (l1 ++ l2) := by
  induction l1 generalizing a with
  | nil => simpa [lastBal] using h2
  | cons e l ih =>
      rw [lastBal_cons] at h2
      exact ⟨h1.1, ih h1.2 h2⟩

theorem balancesNonincreasingFrom_pairwise {a : ℝ} {l : List PaymentDetail}
    (h : balancesNonincreasingFrom a l) : balancesNonincreasing l := by
  induction l generalizing a with
  | nil => trivial
  | cons x t ih =>
      cases t with
      | nil => trivial
      | cons y u => exact ⟨h.2.1, ih h.2⟩

theorem calculatePayment_cast (B ρ : ℝ) (hρ : ¬ ρ = 0) (m : ℕ) :
    calculatePayment B ρ (m : ℤ) = B * (ρ * (1 + ρ) ^ m) / ((1 + ρ) ^ m - 1) := by
  unfold calculatePayment
  rw [if_neg hρ, Real.rpow_intCast, zpow_natCast]

theorem geomSum_zero_rate (k : ℕ) : geomSum 0 k = (k : ℝ) := by
  induction k with
  | zero => simp [geomSum]
  | succ k ih => rw [geomSum, ih]; push_cast; ring

theorem geomSum_formula (ρ : ℝ) (hρ : ρ ≠ 0) (k : ℕ) :
    geomSum ρ k = ((1 + ρ) ^ k - 1) / ρ := by
  induction k with
  | zero => simp [geomSum]
  | succ k ih =>
      rw [geomSum, ih, pow_succ]
      field_simp
      ring

theorem annuityPath_closed (B P ρ : ℝ) (k : ℕ) :
    annuityPath B P ρ k = B * (1 + ρ) ^ k - P * geomSum ρ k := by
  induction k with
  | zero => simp [annuityPath, geomSum]
  | succ k ih => rw [annuityPath, ih, geomSum, pow_succ]; ring

theorem annuityPath_final (B ρ : ℝ) (hρ : 0 ≤ ρ) (m : ℕ) (hm : 1 ≤ m) :
    annuityPath B (calculatePayment B ρ (m : ℤ)) ρ m = 0 := by
  rcases eq_or_lt_of_le hρ with h0 | hpos
  · have hz : ρ = 0 := h0.symm
    subst hz
    rw [annuityPath_closed, geomSum_zero_rate]
    unfold calculatePayment
    rw [if_pos rfl]
    have hm0 : ((m : ℤ) : ℝ) = (m : ℝ) := by push_cast; ring
    have hmne : (m : ℝ) ≠ 0 := by
      have : 0 < m := hm
      positivity
    rw [hm0]
    field_simp
  · have hne : ρ ≠ 0 := ne_of_gt hpos
    rw [annuityPath_closed, geomSum_formula ρ hne, calculatePayment_cast B ρ hne]
    have hX : 1 < (1 + ρ) ^ m := one_lt_pow (by linarith) (by omega)
    have hXne : (1 + ρ) ^ m - 1 ≠ 0 := ne_of_gt (by linarith)
    field_simp
    ring

theorem annuityPath_nonneg (B P ρ : ℝ) (hρ : 0 ≤ ρ) (hP : 0 ≤ P) (m : ℕ)
    (hfin : annuityPath B P ρ m = 0) : ∀ k, k ≤ m → 0 ≤ annuityPath B P ρ k := by
  have key : ∀ j, j ≤ m → 0 ≤ annuityPath B P ρ (m - j) := by
    intro j
    induction j with
    | zero => intro h; rw [Nat.sub_zero, hfin]
    | succ j ih =>
        intro hj
        have h2 := ih (Nat.le_of_succ_le hj)
        have he : m - j = (m - (j + 1)) + 1 := by omega
        rw [he, annuityPath] at h2
        nlinarith [h2, hP, hρ]
  intro k hk
  have hkey := key (m - k) (by omega)
  rwa [show m - (m - k) = k from by omega] at hkey

theorem calculatePayment_nonneg (B ρ : ℝ) (hB : 0 ≤ B) (hρ : 0 ≤ ρ) (m : ℕ) (hm : 1 ≤ m) :
    0 ≤ calculatePayment B ρ (m : ℤ) := by
  rcases eq_or_lt_of_le hρ with h0 | hpos
  · unfold calculatePayment
    rw [if_pos h0.symm]
    have hc : (0 : ℝ) ≤ ((m : ℤ) : ℝ) := by push_cast; positivity
    exact div_nonneg hB hc
  · have hne : ρ ≠ 0 := ne_of_gt hpos
    rw [calculatePayment_cast B ρ hne]
    have hX : 1 < (1 + ρ) ^ m := one_lt_pow (by linarith) (by omega)
    apply div_nonneg
    · exact mul_nonneg hB (mul_nonneg (le_of_lt hpos) (by positivity))
    · linarith

theorem calculatePayment_covers_interest (B ρ : ℝ) (hB : 0 ≤ B) (hρ : 0 ≤ ρ)
    (m : ℕ) (hm : 1 ≤ m) : ρ * B ≤ calculatePayment B ρ (m : ℤ) := by
  rcases eq_or_lt_of_le hρ with h0 | hpos
  · have hz : ρ = 0 := h0.symm
    subst hz
    rw [zero_mul]
    exact calculatePayment_nonneg B 0 hB (le_refl 0) m hm
  · have hne : ρ ≠ 0 := ne_of_gt hpos
    rw [calculatePayment_cast B ρ hne]
    have hX : 1 < (1 + ρ) ^ m := one_lt_pow (by linarith) (by omega)
    rw [le_div_iff (by linarith)]
    nlinarith

theorem runPayments_le_path (params : MortgageParams) (term : RenewalPeriod) (tn : ℤ)
    (ρ P : ℝ) (hρ : 0 ≤ ρ)
    (hext0 : ∀ n, 0 ≤ getAdditionalPaymentAmount n params.additionalPayments)
    (B : ℝ) (m : ℕ) (hpath : ∀ k, k ≤ m → 0 ≤ annuityPath B P ρ k) :
    ∀ (fuel : ℕ) (j : ℕ) (s : LoopState), j + fuel ≤ m → 0 ≤ s.balance →
      s.balance ≤ annuityPath B P ρ j →
      (runPayments params term tn ρ P fuel s).2.balance ≤
        max 0.01 (annuityPath B P ρ (j + fuel)) := by
  intro fuel
  induction fuel with
  | zero =>
      intro j s hjm hs hle
      rw [Nat.add_zero]
      exact le_trans hle (le_max_right _ _)
  | succ fuel ih =>
      intro j s hjm hs hle
      rw [runPayments]
      by_cases hg : (0.01 : ℝ) < s.balance
      · rw [if_pos hg]
        dsimp only
        have hstep : (payStep params term tn ρ P s).2.balance ≤ annuityPath B P ρ (j + 1) := by
          rw [payStep_state_balance]
          have hnn1 : 0 ≤ min
              (getAdditionalPaymentAmount s.paymentNumber params.additionalPayments)
              (s.balance - min (P - s.balance * ρ) s.balance) := by
            apply le_min (hext0 _)
            have := min_le_right (P - s.balance * ρ) s.balance
            linarith
          have hb1 : s.balance - min (P - s.balance * ρ) s.balance ≤
              max (s.balance * (1 + ρ) - P) 0 := by
            rcases le_total (P - s.balance * ρ) s.balance with h | h
            · rw [min_eq_left h]
              have hr : s.balance - (P - s.balance * ρ) = s.balance * (1 + ρ) - P := by ring
              rw [hr]
              exact le_max_left _ _
            · rw [min_eq_right h]
              simpa using le_max_right (s.balance * (1 + ρ) - P) 0
          have hpath1 : 0 ≤ annuityPath B P ρ (j + 1) := hpath _ (by omega)
          have hup : s.balance * (1 + ρ) - P ≤ annuityPath B P ρ (j + 1) := by
            rw [annuityPath]
            have := mul_le_mul_of_nonneg_right hle (by linarith : (0 : ℝ) ≤ 1 + ρ)
            linarith
          have hmx : max (s.balance * (1 + ρ) - P) 0 ≤ annuityPath B P ρ (j + 1) :=
            max_le hup hpath1
          linarith
        have hnn := payStep_state_nonneg params term tn ρ P s hs
        have hrec := ih (j + 1) (payStep params term tn ρ P s).2 (by omega) hnn hstep
        rw [show j + 1 + fuel = j + (fuel + 1) from by omega] at hrec
        exact hrec
      · rw [if_neg hg]
        exact le_trans (le_of_not_lt hg) (le_max_left _ _)

theorem runPayments_exhaust (params : MortgageParams) (term : RenewalPeriod) (tn : ℤ)
    (ρ : ℝ) (hρ : 0 ≤ ρ)
    (hext0 : ∀ n, 0 ≤ getAdditionalPaymentAmount n params.additionalPayments)
    (s : LoopState) (hs : 0 ≤ s.balance) (m : ℕ) (hm : 1 ≤ m) (fuel : ℕ) (hfuel : m ≤ fuel) :
    (runPayments params term tn ρ (calculatePayment s.balance ρ (m : ℤ)) fuel s).2.balance ≤
      0.01 ∧
    (runPayments params term tn ρ (calculatePayment s.balance ρ (m : ℤ)) fuel s).1.length ≤ m := by
  set P := calculatePayment s.balance ρ (m : ℤ) with hPdef
  have hfin := annuityPath_final s.balance ρ hρ m hm
  have hPnn : 0 ≤ P := calculatePayment_nonneg s.balance ρ hs hρ m hm
  have hpath := annuityPath_nonneg s.balance P ρ hρ hPnn m hfin
  have hm0 := runPayments_le_path params term tn ρ P hρ hext0 s.balance m hpath m 0 s
    (by omega) hs (le_of_eq rfl)
  rw [Nat.zero_add, hfin, max_eq_left (by norm_num)] at hm0
  obtain ⟨k, rfl⟩ : ∃ k, fuel = m + k := ⟨fuel - m, by omega⟩
  rw [runPayments_add]
  have hstuck := runPayments_stuck params term tn ρ P k _ (not_lt.mpr hm0)
  constructor
  · rw [hstuck]
    exact hm0
  · rw [hstuck]
    dsimp only
    rw [List.append_nil]
    exact runPayments_len_le params term tn ρ P m s

theorem runTerms_pn (params : MortgageParams) (N : ℤ) :
    ∀ (ts : List RenewalPeriod) (tn : ℤ) (s : LoopState),
      (runTerms params N ts tn s).2.paymentNumber =
        s.paymentNumber + ((runTerms params N ts tn s).1.length : ℤ) := by
  intro ts
  induction ts with
  | nil => intro tn s; simp [runTerms]
  | cons term rest ih =>
      intro tn s
      rw [runTerms.eq_def]
      dsimp only
      by_cases hb : (runPayments params term tn
          (getPeriodicRate term.annualRate params.paymentFrequency)
          (calculatePayment s.balance (getPeriodicRate term.annualRate params.paymentFrequency)
            (N - s.paymentNumber + 1))
          ((termEnd N rest - term.startPayment + 1).toNat) s).2.balance < 0.01
      · rw [if_pos hb]
        exact runPayments_pn params term tn _ _ _ s
      · rw [if_neg hb]
        dsimp only
        rw [List.length_append, ih, runPayments_pn]
        push_cast
        ring

theorem runTerms_main (params : MortgageParams) (N : ℤ)
    (hext0 : ∀ n, 0 ≤ getAdditionalPaymentAmount n params.additionalPayments) :
    ∀ (ts : List RenewalPeriod),
      List.Pairwise (fun a b => a.startPayment ≤ b.startPayment) ts →
      (∀ t ∈ ts, 0 ≤ getPeriodicRate t.annualRate params.paymentFrequency) →
      ∀ (tn : ℤ) (s : LoopState), 0 ≤ s.balance → s.paymentNumber ≤ N + 1 →
      (s.balance ≤ 0.01 ∨
        (s.paymentNumber ≤ N ∧ ∀ t ∈ ts.head?, s.paymentNumber = t.startPayment)) →
      (runTerms params N ts tn s).2.paymentNumber ≤ N + 1 ∧
      balancesNonincreasingFrom s.balance (runTerms params N ts tn s).1 ∧
      (ts ≠ [] → (runTerms params N ts tn s).2.balance ≤ 0.01) := by
  intro ts
  induction ts with
  | nil =>
      intro _ _ tn s hs hpn _
      exact ⟨hpn, trivial, fun h => absurd rfl h⟩
  | cons term rest ih =>
      intro hpw hrates tn s hs hpn hinv
      rw [runTerms.eq_def]
      dsimp only
      set ρ := getPeriodicRate term.annualRate params.paymentFrequency with hρdef
      set P := calculatePayment s.balance ρ (N - s.paymentNumber + 1) with hPdef
      set fuel := (termEnd N rest - term.startPayment + 1).toNat with hfueldef
      set inner := runPayments params term tn ρ P fuel s with hinnerdef
      have hρnn : 0 ≤ ρ := hrates term (List.mem_cons_self term rest)
      have hchain := runPayments_chain params term tn ρ P fuel s hs
      rw [← hinnerdef] at hchain
      obtain ⟨hch, hinn_nn, hlastb⟩ := hchain
      rcases hinv with hb01 | ⟨hpnN, hhead⟩
      · have hstuck : inner = ([], s) := by
          rw [hinnerdef]
          exact runPayments_stuck params term tn ρ P fuel s (not_lt.mpr hb01)
        have h1 : inner.1 = [] := by rw [hstuck]
        have h2 : inner.2 = s := by rw [hstuck]
        by_cases hlt : inner.2.balance < 0.01
        · rw [if_pos hlt]
          refine ⟨?_, ?_, fun _ => le_of_lt hlt⟩
          · rw [h2]
            exact hpn
          · rw [h1]
            exact trivial
        · rw [if_neg hlt]
          dsimp only
          have hrec := ih (List.pairwise_cons.mp hpw).2
            (fun t ht => hrates t (List.mem_cons_of_mem term ht)) (tn + 1) s hs hpn
            (Or.inl hb01)
          rw [h1, h2, List.nil_append]
          refine ⟨hrec.1, hrec.2.1, fun _ => ?_⟩
          rcases rest with _ | ⟨r, rest2⟩
          · exact hb01
          · exact hrec.2.2 (by simp)
      · have hts : s.paymentNumber = term.startPayment := hhead term rfl
        set m : ℤ := N - s.paymentNumber + 1 with hmdef
        have hm1 : 1 ≤ m := by omega
        set mNat := m.toNat with hmNdef
        have hcast : (mNat : ℤ) = m := Int.toNat_of_nonneg (by omega)
        have hmN1 : 1 ≤ mNat := by omega
        have hPm : P = calculatePayment s.balance ρ (mNat : ℤ) := by rw [hPdef, hcast]
        have hcov : ρ * s.balance ≤ P := by
          rw [hPm]
          exact calculatePayment_covers_interest s.balance ρ hs hρnn mNat hmN1
        have hmono := runPayments_mono params term tn ρ P hρnn hext0 fuel s hs hcov
        rw [← hinnerdef] at hmono
        have hpnlen := runPayments_pn params term tn ρ P fuel s
        rw [← hinnerdef] at hpnlen
        have hlen_le_fuel := runPayments_len_le params term tn ρ P fuel s
        rw [← hinnerdef] at hlen_le_fuel
        have hlen_le_m : inner.1.length ≤ mNat := by
          rcases le_total fuel mNat with h | h
          · omega
          · have hex := runPayments_exhaust params term tn ρ hρnn hext0 s hs mNat hmN1 fuel h
            rw [← hPm, ← hinnerdef] at hex
            exact hex.2
        have hpn2 : inner.2.paymentNumber ≤ N + 1 := by
          have hc2 : (inner.1.length : ℤ) ≤ (mNat : ℤ) := by exact_mod_cast hlen_le_m
          omega
        by_cases hb : inner.2.balance < 0.01
        · rw [if_pos hb]
          exact ⟨hpn2, hmono.1, fun _ => le_of_lt hb⟩
        · rw [if_neg hb]
          dsimp only
          by_cases hble : inner.2.balance ≤ 0.01
          · have hrec := ih (List.pairwise_cons.mp hpw).2
              (fun t ht => hrates t (List.mem_cons_of_mem term ht)) (tn + 1) inner.2
              hinn_nn hpn2 (Or.inl hble)
            refine ⟨hrec.1, ?_, fun _ => ?_⟩
            · apply balancesNonincreasingFrom_append hmono.1
              rw [hlastb]
              exact hrec.2.1
            · rcases rest with _ | ⟨r, rest2⟩
              · exact hble
              · exact hrec.2.2 (by simp)
          · have hlen_eq : inner.1.length = fuel := by
              by_contra hne2
              have hlt2 : inner.1.length < fuel := lt_of_le_of_ne hlen_le_fuel hne2
              rw [hinnerdef] at hlt2
              have hst := runPayments_stop params term tn ρ P fuel s hlt2
              rw [← hinnerdef] at hst
              exact hble hst
            have hfuel_lt : fuel < mNat := by
              by_contra hge
              push_neg at hge
              have hex := runPayments_exhaust params term tn ρ hρnn hext0 s hs mNat hmN1 fuel hge
              rw [← hPm, ← hinnerdef] at hex
              exact hble hex.1
            rcases rest with _ | ⟨r, rest2⟩
            · exfalso
              have hfe : fuel = (N - term.startPayment + 1).toNat := hfueldef
              omega
            · have hle : term.startPayment ≤ r.startPayment :=
                (List.pairwise_cons.mp hpw).1 r (List.mem_cons_self r rest2)
              have hfe2 : fuel = (r.startPayment - 1 - term.startPayment + 1).toNat := hfueldef
              have hfe : (fuel : ℤ) = r.startPayment - term.startPayment := by omega
              have hpneq : inner.2.paymentNumber = r.startPayment := by
                rw [hpnlen, hlen_eq]
                omega
              have hpnle : inner.2.paymentNumber ≤ N := by
                rw [hpnlen, hlen_eq]
                omega
              have hheadrec : ∀ t ∈ (r :: rest2).head?,
                  inner.2.paymentNumber = t.startPayment := by
                intro t htm
                have h3 : r = t := by simpa using htm
                rw [← h3]
                exact hpneq
              have hrec := ih (List.pairwise_cons.mp hpw).2
                (fun t ht => hrates t (List.mem_cons_of_mem term ht)) (tn + 1) inner.2
                hinn_nn hpn2 (Or.inr ⟨hpnle, hheadrec⟩)
              refine ⟨hrec.1, ?_, fun _ => hrec.2.2 (by simp)⟩
              apply balancesNonincreasingFrom_append hmono.1
              rw [hlastb]
              exact hrec.2.1

theorem runTerms_nonempty (params : MortgageParams) (N : ℤ) :
    ∀ (ts : List RenewalPeriod),
      List.Pairwise (fun a b => a.startPayment ≤ b.startPayment) ts →
      ∀ (tn : ℤ) (s : LoopState), ts ≠ [] → 0.01 < s.balance →
      (∀ t ∈ ts.head?, s.paymentNumber = t.startPayment) → s.paymentNumber ≤ N →
      (runTerms params N ts tn s).1 ≠ [] := by
  intro ts
  induction ts with
  | nil => intro _ tn s hne; exact absurd rfl hne
  | cons term rest ih =>
      intro hpw tn s _ hbal hhead hpnN
      rw [runTerms.eq_def]
      dsimp only
      set ρ := getPeriodicRate term.annualRate params.paymentFrequency with hρdef
      set P := calculatePayment s.balance ρ (N - s.paymentNumber + 1) with hPdef
      set fuel := (termEnd N rest - term.startPayment + 1).toNat with hfueldef
      set inner := runPayments params term tn ρ P fuel s with hinnerdef
      have hts : s.paymentNumber = term.startPayment := hhead term rfl
      by_cases hf : fuel = 0
      · have hstuck : inner = ([], s) := by
          rw [hinnerdef, hf]
          rfl
        rcases rest with _ | ⟨r, rest2⟩
        · exfalso
          have hfe : fuel = (N - term.startPayment + 1).toNat := hfueldef
          omega
        · have hle : term.startPayment ≤ r.startPayment :=
            (List.pairwise_cons.mp hpw).1 r (List.mem_cons_self r rest2)
          have hfe : fuel = (r.startPayment - 1 - term.startPayment + 1).toNat := hfueldef
          have hreq : r.startPayment = term.startPayment := by omega
          have h1 : inner.1 = [] := by rw [hstuck]
          have h2 : inner.2 = s := by rw [hstuck]
          have hnlt : ¬ inner.2.balance < 0.01 := by
            rw [h2]
            exact not_lt.mpr (le_of_lt hbal)
          rw [if_neg hnlt]
          dsimp only
          rw [h1, h2, List.nil_append]
          apply ih (List.pairwise_cons.mp hpw).2 (tn + 1) s (by simp) hbal ?_ hpnN
          intro t htm
          have h3 : r = t := by simpa using htm
          rw [← h3, hreq]
          exact hts
      · have hcons : ∃ e l, inner.1 = e :: l := by
          obtain ⟨f2, hf2⟩ : ∃ f2, fuel = f2 + 1 := ⟨fuel - 1, by omega⟩
          rw [hinnerdef, hf2, runPayments, if_pos hbal]
          dsimp only
          exact ⟨_, _, rfl⟩
        obtain ⟨e, l, hcons⟩ := hcons
        by_cases hb : inner.2.balance < 0.01
        · rw [if_pos hb]
          rw [hcons]
          simp
        · rw [if_neg hb]
          dsimp only
          rw [hcons]
          simp

theorem getPeriodicRate_nonneg (a : ℝ) (f : PaymentFrequency) (ha : 0 ≤ a) :
    0 ≤ getPeriodicRate a f := by
  unfold getPeriodicRate
  dsimp only
  have hppy : (0 : ℝ) ≤ (2 : ℝ) / ((getPaymentsPerYear f : ℤ) : ℝ) := by
    cases f <;> norm_num [getPaymentsPerYear]
  have h1 : (1 : ℝ) ≤ (1 + a / 2) ^ ((2 : ℝ) / ((getPaymentsPerYear f : ℤ) : ℝ)) :=
    calc (1 : ℝ) = (1 : ℝ) ^ ((2 : ℝ) / ((getPaymentsPerYear f : ℤ) : ℝ)) :=
          (Real.one_rpow _).symm
    _ ≤ (1 + a / 2) ^ ((2 : ℝ) / ((getPaymentsPerYear f : ℤ) : ℝ)) :=
          Real.rpow_le_rpow (by norm_num) (by linarith) hppy
  linarith

theorem sortRenewalPeriods_pairwise (l : List RenewalPeriod) :
    List.Pairwise (fun a b => a.startPayment ≤ b.startPayment) (sortRenewalPeriods l) := by
  have h : List.Pairwise
      (fun a b : RenewalPeriod => decide (a.startPayment ≤ b.startPayment) = true)
      (l.mergeSort fun a b => decide (a.startPayment ≤ b.startPayment)) :=
    List.sorted_mergeSort
      (fun a b c hab hbc => by
        simp only [decide_eq_true_eq] at hab hbc ⊢
        exact le_trans hab hbc)
      (fun a b => by
        simp only [Bool.or_eq_true, decide_eq_true_eq]
        exact le_total a.startPayment b.startPayment)
      l
  unfold sortRenewalPeriods
  exact h.imp (fun hab => of_decide_eq_true hab)

theorem sortRenewalPeriods_mem (l : List RenewalPeriod) (t : RenewalPeriod) :
    t ∈ sortRenewalPeriods l ↔ t ∈ l :=
  (List.mergeSort_perm l fun a b => decide (a.startPayment ≤ b.startPayment)).mem_iff

theorem sortRenewalPeriods_ne_nil {l : List RenewalPeriod} (h : l ≠ []) :
    sortRenewalPeriods l ≠ [] := by
  intro hc
  rcases l with _ | ⟨a, l2⟩
  · exact h rfl
  · have hma : a ∈ sortRenewalPeriods (a :: l2) :=
      (sortRenewalPeriods_mem _ a).mpr (List.mem_cons_self a l2)
    rw [hc] at hma
    simp at hma

theorem head_start_one {l : List RenewalPeriod}
    (hpw : List.Pairwise (fun a b => a.startPayment ≤ b.startPayment) l)
    (hall : ∀ t ∈ l, 1 ≤ t.startPayment) (hone : ∃ t ∈ l, t.startPayment = 1) :
    ∀ t ∈ l.head?, t.startPayment = 1 := by
  intro t htm
  rcases l with _ | ⟨a, l2⟩
  · simp at htm
  · have h3 : a = t := by simpa using htm
    subst h3
    obtain ⟨u, hu, hu1⟩ := hone
    rcases List.mem_cons.mp hu with rfl | hm
    · exact hu1
    · have h4 : a.startPayment ≤ u.startPayment := (List.pairwise_cons.mp hpw).1 u hm
      have h5 : 1 ≤ a.startPayment := hall a (List.mem_cons_self a l2)
      omega

theorem lastBal_getLast (a : ℝ) (l : List PaymentDetail) :
    ∀ e ∈ l.getLast?, lastBal a l = e.balance := by
  induction l generalizing a with
  | nil => intro e he; simp at he
  | cons x t ih =>
      intro e he
      rcases t with _ | ⟨y, u⟩
      · have hx : x = e := by simpa using he
        rw [lastBal_cons, lastBal_nil, ← hx]
      · rw [lastBal_cons]
        apply ih
        simpa using he

/-- C3 (amended): for accepted parameters whose renewal periods all start at
index 1 or later with some term starting exactly at payment 1, with
nonnegative annual rates and extra-payment amounts, a principal above the
one-cent stopping guard and at least one nominal payment, the ledger is
non-empty, never longer than the nominal payment count, its balance column is
non-increasing, and the final entry's balance is at most 0.01. -/
theorem claim_C3 (p : MortgageParams) (s : AmortizationSchedule)
    (hok : calculateAmortizationSchedule p = Except.ok s)
    (hall : ∀ t ∈ p.renewalPeriods, 1 ≤ t.startPayment)
    (hone : ∃ t ∈ p.renewalPeriods, t.startPayment = 1)
    (hrates : ∀ t ∈ p.renewalPeriods, 0 ≤ t.annualRate)
    (hext : ∀ a ∈ p.additionalPayments, 0 ≤ a.amount)
    (hbal : (0.01 : ℝ) < p.principal)
    (hN : 1 ≤ getPaymentCount p.amortizationYears p.paymentFrequency) :
    s.payments ≠ [] ∧
    (s.payments.length : ℤ) ≤ getPaymentCount p.amortizationYears p.paymentFrequency ∧
    balancesNonincreasing s.payments ∧
    ∀ e ∈ s.payments.getLast?, e.balance ≤ 0.01 := by
  obtain ⟨ins, hins, rfl⟩ := run_ok_elim p s hok
  rw [mainSchedule_payments]
  set N := getPaymentCount p.amortizationYears p.paymentFrequency with hNdef
  set sorted := sortRenewalPeriods p.renewalPeriods with hsorteddef
  have hipn : (initialLoopState p.principal).paymentNumber = 1 := rfl
  have hibal : (initialLoopState p.principal).balance = p.principal := rfl
  have hpw : List.Pairwise (fun a b => a.startPayment ≤ b.startPayment) sorted :=
    sortRenewalPeriods_pairwise p.renewalPeriods
  have hmem : ∀ t, t ∈ sorted ↔ t ∈ p.renewalPeriods :=
    fun t => sortRenewalPeriods_mem p.renewalPeriods t
  have hallS : ∀ t ∈ sorted, 1 ≤ t.startPayment := fun t ht => hall t ((hmem t).mp ht)
  have honeS : ∃ t ∈ sorted, t.startPayment = 1 := by
    obtain ⟨u, hu, hu1⟩ := hone
    exact ⟨u, (hmem u).mpr hu, hu1⟩
  have hratesS : ∀ t ∈ sorted, 0 ≤ getPeriodicRate t.annualRate p.paymentFrequency :=
    fun t ht => getPeriodicRate_nonneg t.annualRate p.paymentFrequency
      (hrates t ((hmem t).mp ht))
  have hne : sorted ≠ [] := by
    apply sortRenewalPeriods_ne_nil
    obtain ⟨u, hu, _⟩ := hone
    exact List.ne_nil_of_mem hu
  have hhead : ∀ t ∈ sorted.head?,
      (initialLoopState p.principal).paymentNumber = t.startPayment := by
    intro t ht
    rw [hipn, head_start_one hpw hallS honeS t ht]
  have hext0 : ∀ n, 0 ≤ getAdditionalPaymentAmount n p.additionalPayments :=
    fun n => getAdditionalPaymentAmount_nonneg n p.additionalPayments hext
  have hs0 : 0 ≤ (initialLoopState p.principal).balance := by
    rw [hibal]
    linarith
  obtain ⟨hm1, hm2, hm3⟩ := runTerms_main p N hext0 sorted hpw hratesS 1
    (initialLoopState p.principal) hs0 (by rw [hipn]; omega)
    (Or.inr ⟨by rw [hipn]; exact hN, hhead⟩)
  have hnonempty := runTerms_nonempty p N sorted hpw 1 (initialLoopState p.principal) hne
    (by rw [hibal]; exact hbal) hhead (by rw [hipn]; exact hN)
  refine ⟨hnonempty, ?_, balancesNonincreasingFrom_pairwise hm2, ?_⟩
  · have hlen := runTerms_pn p N sorted 1 (initialLoopState p.principal)
    rw [hipn] at hlen
    omega
  · intro e he
    have hchain := (runTerms_chain p N sorted 1 (initialLoopState p.principal) hs0).2.2
    have hl := lastBal_getLast (initialLoopState p.principal).balance
      (runTerms p N sorted 1 (initialLoopState p.principal)).1 e he
    rw [← hl, hchain]
    exact hm3 hne

theorem run_w3Params :
    calculateAmortizationSchedule w3Params = Except.ok (mainSchedule w3Params ins10) := by
  norm_num [calculateAmortizationSchedule, w3Params, calculateMortgageWithInsurance,
    getCMHCPremiumRate, ins10]

/-- C3 (amended) witness: the two-payment zero-rate mortgage whose single term
starts at payment 1 is accepted and its ledger satisfies all four conclusions. -/
theorem claim_C3_witness :
    (0.01 : ℝ) < w3Params.principal ∧
    (mainSchedule w3Params ins10).payments ≠ [] ∧
    ((mainSchedule w3Params ins10).payments.length : ℤ) ≤
      getPaymentCount w3Params.amortizationYears w3Params.paymentFrequency ∧
    balancesNonincreasing (mainSchedule w3Params ins10).payments ∧
    ∀ e ∈ (mainSchedule w3Params ins10).payments.getLast?, e.balance ≤ 0.01 := by
  refine ⟨by norm_num [w3Params], ?_⟩
  exact claim_C3 w3Params (mainSchedule w3Params ins10) run_w3Params
    (by
      intro t ht
      have h1 : t = ⟨1, 0, 5⟩ := by simpa [w3Params] using ht
      rw [h1])
    ⟨⟨1, 0, 5⟩, by simp [w3Params], rfl⟩
    (by
      intro t ht
      have h1 : t = ⟨1, 0, 5⟩ := by simpa [w3Params] using ht
      rw [h1])
    (by
      intro a ha
      simp [w3Params] at ha)
    (by norm_num [w3Params])
    (by norm_num [w3Params, getPaymentCount, getPaymentsPerYear, jsRound])

end
